import Mathlib

/-!
Verification of the fawa-compliance-evidence pipeline (TypeScript sources)
against its natural-language specification.

The TypeScript stages are shallowly embedded: pure computations become Lean
functions, the filesystem becomes an explicit `String → Option Bytes` map,
external primitives (SHA-256, `JSON.parse`, `Date.parse`, string matchers)
become function parameters, and fallible code returns `Except String`.
Error message strings mirror the source; apostrophes inside them are written
with the escape \x27.
-/

/-- `"passed" | "failed"` — the source's `Result`, `AssertionStatus` and
`CheckStatus` string-literal types. -/
inductive Status
  | passed
  | failed
deriving DecidableEq, Repr

/-- `"includes" | "regex"` matcher kinds. -/
inductive MatcherType
  | includes
  | regex
deriving DecidableEq, Repr

/-- `"unit" | "e2e"` suite kinds. -/
inductive SuiteType
  | unit
  | e2e
deriving DecidableEq, Repr

/-- `"json" | "junit"` artifact formats. -/
inductive ArtifactFormat
  | json
  | junit
deriving DecidableEq, Repr

/-- `AssertionEvidenceRef` from the producer sources. -/
structure AssertionEvidenceRef where
  filePath : String
  matcherType : MatcherType
  matcher : String
deriving DecidableEq, Repr

/-- `TestAssertion`: an evaluated assertion. -/
structure TestAssertion where
  assertionId : String
  name : String
  status : Status
  expected : String
  actual : String
  evidenceRef : AssertionEvidenceRef
  verifiedAt : String
deriving DecidableEq, Repr

/-- `TestArtifact`: a content-hashed artifact reference. -/
structure TestArtifact where
  format : ArtifactFormat
  path : String
  sha256 : String
deriving DecidableEq, Repr

/-- `TestEvidenceEntry` as shared by producers, mergers and validators. -/
structure TestEvidenceEntry where
  testId : String
  sourcePath : String
  suiteType : SuiteType
  result : Status
  workflowPath : String
  runId : String
  jobName : String
  sourceCommitSha : String
  executedAt : String
  artifacts : List TestArtifact
  verificationCommand : String
  assertions : List TestAssertion
deriving DecidableEq, Repr

/-- `TestEvidenceManifest { generatedAt, testEvidence }`. -/
structure TestEvidenceManifest where
  generatedAt : String
  testEvidence : List TestEvidenceEntry
deriving DecidableEq, Repr

/-- Raw bytes of a file, as read by `readFileSync`. -/
abbrev Bytes := List Nat

/-- The source's `ensure(condition, message)` helper: `throw` becomes
`Except.error`. -/
def ensure (p : Prop) [Decidable p] (msg : String) : Except String Unit :=
  if p then Except.ok () else Except.error msg

theorem ensure_bind {β : Type} {p : Prop} [Decidable p] (msg : String)
    (k : Unit → Except String β) :
    (ensure p msg >>= k) = if p then k () else Except.error msg := by
  unfold ensure
  split <;> rfl

theorem ensure_ok {p : Prop} [inst : Decidable p] {msg : String} {u : Unit}
    (h : ensure p msg = Except.ok u) : p := by
  unfold ensure at h
  split at h
  · assumption
  · exact absurd h (by simp)

/-- `path.join(a, b)` for the relative joins the pipeline performs. -/
def pathJoin (a b : String) : String := a ++ "/" ++ b

/-- `startsWith`, computed on the underlying character lists (the model
avoids `String.startsWith`, whose byte-position loop does not reduce in
the kernel). -/
def strStartsWith (s pre : String) : Bool := pre.data.isPrefixOf s.data

/-- `path.basename`: the final path component. -/
def baseName (s : String) : String :=
  String.mk ((s.data.reverse.takeWhile (fun c => c ≠ Char.ofNat 47)).reverse)

/-- The `/^[A-Fa-f0-9]{64}$/` test applied to recorded sha256 strings. -/
def isHexDigit (c : Char) : Bool :=
  (Char.ofNat 48 ≤ c && c ≤ Char.ofNat 57) ||
  (Char.ofNat 97 ≤ c && c ≤ Char.ofNat 102) ||
  (Char.ofNat 65 ≤ c && c ≤ Char.ofNat 70)

def isHex64 (s : String) : Bool :=
  s.length == 64 && s.toList.all isHexDigit

/-!
## TestEvidenceProducer (runTestEvidence / runE2eTestEvidence)

Both producers share the same result computation.  External primitives:
`matcherTest` stands for `source.includes(matcher)` / `new RegExp(matcher, "m")
.test(source)`, `readSource` for `readFileSync` of the asserted file, and
`writeArtifacts` for the sanitized JSON/JUnit artifact writes (whose
descriptors embed SHA-256 hashes of the bytes just written).
-/

/-- `AssertionDefinition`: a static, code-defined check. -/
structure AssertionDefinition where
  assertionId : String
  name : String
  filePath : String
  matcherType : MatcherType
  matcher : String
  expected : String
deriving DecidableEq, Repr

/-- `TestDefinition` from `runTestEvidence`. -/
structure TestDefinition where
  testId : String
  sourcePath : String
  suiteType : SuiteType
  assertions : List AssertionDefinition
deriving DecidableEq, Repr

/-- External capabilities of the producers. -/
structure ProducerEnv where
  readSource : String → String
  matcherTest : MatcherType → String → String → Bool
  writeArtifacts : String → Status → List TestAssertion → List TestArtifact
  verificationCommandFor : String → String

/-- `evaluateAssertions` body for one definition (part_001 lines 200-231). -/
def evaluateAssertion (env : ProducerEnv) (verifiedAt : String)
    (definition : AssertionDefinition) : TestAssertion :=
  let source := env.readSource definition.filePath
  let matched := env.matcherTest definition.matcherType definition.matcher source
  { assertionId := definition.assertionId
    name := definition.name
    status := if matched then Status.passed else Status.failed
    expected := definition.expected
    actual :=
      if matched then
        "Matched assertion in " ++ definition.filePath ++ "."
      else
        "Matcher \x27" ++ definition.matcher ++ "\x27 not found in " ++
          definition.filePath ++ "."
    evidenceRef :=
      { filePath := definition.filePath
        matcherType := definition.matcherType
        matcher := definition.matcher }
    verifiedAt := verifiedAt }

/-- `assertions.some((assertion) => assertion.status === "failed")`. -/
def hasFailedAssertion (assertions : List TestAssertion) : Bool :=
  assertions.any (fun a => a.status == Status.failed)

/-- Lines 340-341 / 676-677:
`jobResult === "passed" && !hasFailedAssertion ? "passed" : "failed"`. -/
def computeEntryResult (jobResult : Status)
    (assertions : List TestAssertion) : Status :=
  if jobResult == Status.passed && !hasFailedAssertion assertions then
    Status.passed
  else
    Status.failed

/-- Lines 327-328 / 664-665:
`rawResult = process.env.EVIDENCE_RESULT ?? "passed";
 jobResult = rawResult === "failed" ? "failed" : "passed"`. -/
def jobResultOfEnv (evidenceResult : Option String) : Status :=
  let rawResult := evidenceResult.getD "passed"
  if rawResult == "failed" then Status.failed else Status.passed

/-- One iteration of the producer loop (part_001 lines 334-373), building a
`TestEvidenceEntry` from a `TestDefinition`. -/
def produceEntry (env : ProducerEnv) (jobResult : Status)
    (runId jobName sourceCommitSha executedAt workflowPath : String)
    (test : TestDefinition) : TestEvidenceEntry :=
  let assertions := test.assertions.map (evaluateAssertion env executedAt)
  let result := computeEntryResult jobResult assertions
  let artifacts := env.writeArtifacts test.testId result assertions
  { testId := test.testId
    sourcePath := test.sourcePath
    suiteType := test.suiteType
    result := result
    workflowPath := workflowPath
    runId := runId
    jobName := jobName
    sourceCommitSha := sourceCommitSha
    executedAt := executedAt
    artifacts := artifacts
    verificationCommand := env.verificationCommandFor test.testId
    assertions := assertions }

/-!
## EvidenceComposer (part_006)

`validateAndSummarizeTestEvidence` re-validates the merged manifest and
recomputes artifact hashes; `run` writes `current/evidence.json` and
`current/deploy-run.json` only after validation succeeds.  External
primitives: `readFile` is `readFileSync`/`existsSync` (`none` = missing
file), `sha256Of` is node's SHA-256, `parseArtifact` is `JSON.parse` of a
test artifact projected to the fields the composer inspects, and
`parseDate` is `Number.isFinite(Date.parse(s))`.
-/

/-- The fields of a parsed JSON test artifact the validators inspect. -/
structure ArtifactPayload where
  payloadTestId : Option String
  payloadResult : Option Status
  payloadAssertions : Option (List TestAssertion)
deriving DecidableEq, Repr

/-- External capabilities of the composer and the manifest validator. -/
structure FsEnv where
  readFile : String → Option Bytes
  sha256Of : Bytes → String
  parseArtifact : Bytes → Option ArtifactPayload
  parseDate : String → Bool

/-- `AssertionSummaryByTest`. -/
structure AssertionSummaryByTest where
  testId : String
  total : Nat
  passed : Nat
  failed : Nat
deriving DecidableEq, Repr

/-- `AssertionSummary`. -/
structure AssertionSummary where
  total : Nat
  passed : Nat
  failed : Nat
  byTest : List AssertionSummaryByTest
deriving DecidableEq, Repr

/-- The fixed `requiredTestIds` list (part_006 lines 206-212, identical in
the toolkit sources). -/
def requiredTestIds : List String :=
  ["permission-analyzer-unit", "ttl-indexes-persistence-unit",
   "ttl-indexes-api-unit", "device-sync-e2e", "sos-e2e"]

/-- `resolveLocalArtifactPath` (part_006 lines 282-290): paths under
`current/tests/` resolve into the tests dir next to the manifest, others
resolve relative to the manifest's directory. -/
def resolveLocalArtifactPath (testsDir manifestDir : String)
    (artifactPath : String) : String :=
  if strStartsWith artifactPath "current/tests/" then
    pathJoin testsDir (baseName artifactPath)
  else
    pathJoin manifestDir artifactPath

/-- `validateAssertion` (part_006 lines 292-330).  Field-presence checks
that are guaranteed by the record types are kept as the (always-true)
value-level conditions that remain of them. -/
def validateAssertionComposer (env : FsEnv) (assertion : TestAssertion)
    (context : String) : Except String Unit := do
  ensure (assertion.assertionId.length > 0)
    (context ++ ": assertionId is required.")
  ensure (assertion.name.length > 0)
    (context ++ ": assertion name is required.")
  ensure (assertion.status = Status.passed ∨ assertion.status = Status.failed)
    (context ++ ": assertion status must be passed|failed.")
  ensure (assertion.expected.length > 0)
    (context ++ ": assertion expected is required.")
  ensure (assertion.actual.length > 0)
    (context ++ ": assertion actual is required.")
  ensure (env.parseDate assertion.verifiedAt)
    (context ++ ": assertion verifiedAt must be valid datetime.")
  ensure (assertion.evidenceRef.filePath.length > 0 ∧
      (assertion.evidenceRef.matcherType = MatcherType.includes ∨
        assertion.evidenceRef.matcherType = MatcherType.regex) ∧
      assertion.evidenceRef.matcher.length > 0)
    (context ++ ": assertion evidenceRef is invalid.")

/-- The composer's inner assertion loop (part_006 lines 370-382): validate
each assertion and tally `(localPassed, localFailed)`. -/
def tallyAssertions (env : FsEnv) (testId : String) :
    List TestAssertion → Except String (Nat × Nat)
  | [] => Except.ok (0, 0)
  | assertion :: rest => do
    validateAssertionComposer env assertion
      (testId ++ "/" ++ assertion.assertionId)
    let (p, f) ← tallyAssertions env testId rest
    if assertion.status = Status.passed then
      Except.ok (p + 1, f)
    else
      Except.ok (p, f + 1)

/-- The composer's artifact loop (part_006 lines 401-450): recorded hash
shape, file existence, recomputed SHA-256 equality, and for JSON artifacts
the embedded testId/result/assertions cross-checks. -/
def checkArtifactsComposer (env : FsEnv) (testsDir manifestDir : String)
    (testId : String) (result : Status) :
    List TestArtifact → Except String Unit
  | [] => Except.ok ()
  | artifact :: rest => do
    ensure (artifact.format = ArtifactFormat.json ∨
        artifact.format = ArtifactFormat.junit)
      (testId ++ ": unsupported artifact format.")
    ensure (artifact.path.length > 0)
      (testId ++ ": artifact path is required.")
    ensure (isHex64 artifact.sha256)
      (testId ++ ": artifact sha256 is invalid.")
    let artifactLocalPath :=
      resolveLocalArtifactPath testsDir manifestDir artifact.path
    match env.readFile artifactLocalPath with
    | none =>
      Except.error
        (testId ++ ": artifact file not found at " ++ artifactLocalPath ++ ".")
    | some bytes => do
      let actualSha := env.sha256Of bytes
      ensure (actualSha = artifact.sha256)
        (testId ++ ": sha256 mismatch for " ++ artifact.path ++
          ". expected=" ++ artifact.sha256 ++ " actual=" ++ actualSha)
      (if artifact.format = ArtifactFormat.json then do
        match env.parseArtifact bytes with
        | none => Except.error (testId ++ ": invalid json artifact.")
        | some payload => do
          ensure (payload.payloadTestId = some testId)
            (testId ++ ": json artifact testId mismatch.")
          ensure (payload.payloadResult = some result)
            (testId ++ ": json artifact result mismatch.")
          ensure ((payload.payloadAssertions.getD []).length > 0)
            (testId ++ ": json artifact assertions are missing.")
      else
        Except.ok ())
      checkArtifactsComposer env testsDir manifestDir testId result rest

/-- The composer's per-entry loop (part_006 lines 347-458), threading the
`seenTestIds` set and the summary accumulators.  Returns
`(total, passed, failed, byTest, seenTestIds)`. -/
def validateEntriesComposer (env : FsEnv) (testsDir manifestDir : String) :
    List TestEvidenceEntry → List String →
    Except String (Nat × Nat × Nat × List AssertionSummaryByTest × List String)
  | [], seen => Except.ok (0, 0, 0, [], seen)
  | entry :: rest, seen => do
    ensure (entry.testId.length > 0)
      "testId is required in test evidence entry."
    ensure (¬ seen.contains entry.testId)
      ("Duplicate testId found in test evidence: " ++ entry.testId)
    ensure (entry.result = Status.passed ∨ entry.result = Status.failed)
      (entry.testId ++ ": result must be passed|failed.")
    ensure (entry.assertions.length > 0)
      (entry.testId ++ ": assertions must be a non-empty array.")
    ensure (entry.artifacts.length > 0)
      (entry.testId ++ ": artifacts must be a non-empty array.")
    let (localPassed, localFailed) ←
      tallyAssertions env entry.testId entry.assertions
    ensure (localFailed = 0)
      (entry.testId ++
        ": at least one assertion failed; verifier rejects publishing.")
    ensure (entry.result = Status.passed)
      (entry.testId ++ ": result is not \x27passed\x27.")
    ensure (entry.artifacts.any (fun a => a.format == ArtifactFormat.json))
      (entry.testId ++ ": missing json test artifact.")
    checkArtifactsComposer env testsDir manifestDir entry.testId entry.result
      entry.artifacts
    let (t, p, f, byTest, seenFinal) ←
      validateEntriesComposer env testsDir manifestDir rest
        (entry.testId :: seen)
    Except.ok (t + entry.assertions.length, p + localPassed, f + localFailed,
      { testId := entry.testId, total := entry.assertions.length,
        passed := localPassed, failed := localFailed } :: byTest, seenFinal)

/-- The trailing required-ids loop (part_006 lines 460-465 and the identical
loops in the toolkit sources). -/
def checkRequiredIds (errPrefix : String) (required : List String)
    (seen : List String) : Except String Unit :=
  match required with
  | [] => Except.ok ()
  | requiredTestId :: rest =>
    if seen.contains requiredTestId then
      checkRequiredIds errPrefix rest seen
    else
      Except.error (errPrefix ++ requiredTestId)

/-- `validateAndSummarizeTestEvidence` (part_006 lines 332-473). -/
def validateAndSummarizeTestEvidence (env : FsEnv)
    (testsDir manifestDir : String) (testEvidence : List TestEvidenceEntry) :
    Except String AssertionSummary := do
  ensure (testEvidence.length > 0)
    "Test evidence manifest must contain at least one entry."
  let (total, passed, failed, byTest, seen) ←
    validateEntriesComposer env testsDir manifestDir testEvidence []
  checkRequiredIds "Required test evidence is missing: " requiredTestIds seen
  Except.ok (AssertionSummary.mk total passed failed byTest)

/-- A normalized deploy job as carried in `IngestOutput.deploy.jobs` and in
the jobs API response (fields the modeled code reads). -/
structure WorkflowJob where
  name : String
  status : String
  conclusion : Option String
deriving DecidableEq, Repr

/-- `EvidenceCheck { id, name, status, expected, actual }`. -/
structure EvidenceCheck where
  id : String
  name : String
  status : Status
  expected : String
  actual : String
deriving DecidableEq, Repr

/-- `IngestOutput.ci` — the fields `buildChecks` reads. -/
structure IngestCi where
  runId : String
  conclusion : Option String
deriving DecidableEq, Repr

/-- `IngestOutput.deploy` — the fields the composer reads. -/
structure IngestDeploy where
  runId : String
  jobs : List WorkflowJob
deriving DecidableEq, Repr

/-- The slice of `IngestOutput` consumed by `buildChecks`; constant
metadata fields not read by any modeled function are omitted. -/
structure IngestOutput where
  ci : IngestCi
  deploy : IngestDeploy
deriving DecidableEq, Repr

/-- JS template interpolation of a nullable string: `null` prints "null". -/
def displayNullable (value : Option String) : String :=
  match value with
  | some s => s
  | none => "null"

/-- `buildChecks` (part_006 lines 475-512): derives the deploy-required-jobs,
ci-run-success and test-assertions checks. -/
def buildChecks (ingest : IngestOutput) (assertionSummary : AssertionSummary) :
    List EvidenceCheck :=
  let deployCheck : EvidenceCheck :=
    { id := "deploy-required-jobs"
      name := "Deploy Required Jobs"
      status := Status.passed
      expected :=
        "sign_and_attest, deploy_api, deploy_worker, finalize_healthcheck = success"
      actual := String.intercalate ", "
        (ingest.deploy.jobs.map
          (fun job => job.name ++ ":" ++ job.conclusion.getD "unknown")) }
  let ciStatus : Status :=
    if ingest.ci.conclusion == some "success" then Status.passed
    else Status.failed
  let ciCheck : EvidenceCheck :=
    { id := "ci-run-success"
      name := "CI Run Success"
      status := ciStatus
      expected := "CI run conclusion is success"
      actual := "CI run " ++ ingest.ci.runId ++ " conclusion=" ++
        displayNullable ingest.ci.conclusion }
  let assertionStatus : Status :=
    if assertionSummary.failed == 0 then Status.passed else Status.failed
  let assertionCheck : EvidenceCheck :=
    { id := "test-assertions"
      name := "Test Assertions"
      status := assertionStatus
      expected :=
        "All required tests include non-empty assertions and all assertions pass."
      actual := "total=" ++ toString assertionSummary.total ++ ", passed=" ++
        toString assertionSummary.passed ++ ", failed=" ++
        toString assertionSummary.failed }
  [deployCheck, ciCheck, assertionCheck]

/-- The slice of the written `EvidencePayload` the claims mention; constant
metadata fields (documents, limits, policyPackage, ...) are omitted. -/
structure EvidencePayload where
  generatedAt : String
  testEvidence : List TestEvidenceEntry
  assertionSummary : AssertionSummary
  checks : List EvidenceCheck
deriving DecidableEq, Repr

/-- The raw manifest as parsed by the composer (`testEvidence` may be
absent, in which case `run` substitutes `[]`). -/
structure RawTestManifest where
  testEvidence : Option (List TestEvidenceEntry)
deriving DecidableEq, Repr

/-- The composer's `run` (part_006 lines 514-617), from the point where the
three input files have been read and parsed.  The returned list holds the
paths of the files written; every validation failure happens before the
first write, so an error carries no writes at all. -/
def composerRun (env : FsEnv) (testsDir manifestDir : String)
    (ingest : IngestOutput) (testManifest : RawTestManifest) (now : String) :
    Except String (EvidencePayload × List String) := do
  let testEvidence := testManifest.testEvidence.getD []
  let assertionSummary ←
    validateAndSummarizeTestEvidence env testsDir manifestDir testEvidence
  let evidence : EvidencePayload :=
    { generatedAt := now
      testEvidence := testEvidence
      assertionSummary := assertionSummary
      checks := buildChecks ingest assertionSummary }
  Except.ok (evidence, ["current/evidence.json", "current/deploy-run.json"])

/-- The file paths written by a composer outcome: none when it raised. -/
def composerWrites (outcome : Except String (EvidencePayload × List String)) :
    List String :=
  match outcome with
  | Except.ok (_, writes) => writes
  | Except.error _ => []

/-!
## Toolkit manifest validator (src/toolkit/v1/validate-test-evidence.ts)
-/

/-- `validateAssertion` (validate-test-evidence.ts lines 88-126). -/
def validateAssertionToolkit (env : FsEnv) (assertion : TestAssertion)
    (context : String) : Except String Unit := do
  ensure (assertion.assertionId.length > 0)
    (context ++ ": assertionId is required.")
  ensure (assertion.name.length > 0) (context ++ ": name is required.")
  ensure (assertion.status = Status.passed ∨ assertion.status = Status.failed)
    (context ++ ": status must be passed|failed.")
  ensure (assertion.expected.length > 0) (context ++ ": expected is required.")
  ensure (assertion.actual.length > 0) (context ++ ": actual is required.")
  ensure (env.parseDate assertion.verifiedAt)
    (context ++ ": verifiedAt must be a valid ISO datetime.")
  ensure (assertion.evidenceRef.filePath.length > 0 ∧
      (assertion.evidenceRef.matcherType = MatcherType.includes ∨
        assertion.evidenceRef.matcherType = MatcherType.regex) ∧
      assertion.evidenceRef.matcher.length > 0)
    (context ++ ": evidenceRef must include filePath, matcherType and matcher.")

/-- The validator's assertion loop (lines 221-227): validate each assertion
and count the failed ones. -/
def countFailedToolkit (env : FsEnv) (testId : String) :
    List TestAssertion → Except String Nat
  | [] => Except.ok 0
  | assertion :: rest => do
    validateAssertionToolkit env assertion
      (testId ++ "/" ++ assertion.assertionId)
    let n ← countFailedToolkit env testId rest
    if assertion.status = Status.failed then
      Except.ok (n + 1)
    else
      Except.ok n

/-- `resolveArtifactPath` (lines 128-136); absolute paths (leading `/`)
pass through, `current/tests/` paths resolve into the tests dir, others
resolve against the working directory. -/
def resolveArtifactPath (testsDir cwd : String) (artifactPath : String) :
    String :=
  if strStartsWith artifactPath "current/tests/" then
    pathJoin testsDir (baseName artifactPath)
  else if strStartsWith artifactPath "/" then
    artifactPath
  else
    pathJoin cwd artifactPath

/-- The payload-assertion loop of the validator (lines 291-293). -/
def validatePayloadAssertions (env : FsEnv) (context : String) :
    List TestAssertion → Except String Unit
  | [] => Except.ok ()
  | assertion :: rest => do
    validateAssertionToolkit env assertion context
    validatePayloadAssertions env context rest

/-- The validator's artifact loop (lines 244-297). -/
def checkArtifactsToolkit (env : FsEnv) (testsDir cwd : String)
    (testId : String) (result : Status) :
    List TestArtifact → Except String Unit
  | [] => Except.ok ()
  | artifact :: rest => do
    ensure (artifact.format = ArtifactFormat.json ∨
        artifact.format = ArtifactFormat.junit)
      (testId ++ ": invalid artifact format.")
    ensure (artifact.path.length > 0)
      (testId ++ ": artifact path is required.")
    ensure (isHex64 artifact.sha256)
      (testId ++ ": artifact sha256 is invalid.")
    let artifactLocalPath := resolveArtifactPath testsDir cwd artifact.path
    match env.readFile artifactLocalPath with
    | none =>
      Except.error
        (testId ++ ": artifact file not found at " ++ artifactLocalPath ++ ".")
    | some bytes => do
      let actualSha := env.sha256Of bytes
      ensure (actualSha = artifact.sha256)
        (testId ++ ": sha256 mismatch for " ++ artifact.path ++
          ". expected=" ++ artifact.sha256 ++ " actual=" ++ actualSha)
      (if artifact.format = ArtifactFormat.json then do
        match env.parseArtifact bytes with
        | none => Except.error (testId ++ ": invalid json artifact.")
        | some payload => do
          ensure (payload.payloadTestId = some testId)
            (testId ++ ": artifact testId mismatch.")
          ensure (payload.payloadResult = some result)
            (testId ++ ": artifact result mismatch.")
          match payload.payloadAssertions with
          | none => Except.error (testId ++ ": artifact assertions missing.")
          | some artifactAssertions => do
            ensure (artifactAssertions.length > 0)
              (testId ++ ": artifact assertions missing.")
            validatePayloadAssertions env (testId ++ "/artifact")
              artifactAssertions
      else
        Except.ok ())
      checkArtifactsToolkit env testsDir cwd testId result rest

/-- The validator's entry loop (lines 166-298), threading `seenTestIds`. -/
def validateEntriesToolkit (env : FsEnv) (testsDir cwd : String) :
    List TestEvidenceEntry → List String → Except String (List String)
  | [], seen => Except.ok seen
  | entry :: rest, seen => do
    ensure (entry.testId.length > 0) "testId is required."
    ensure (¬ seen.contains entry.testId)
      ("Duplicate testId in manifest: " ++ entry.testId)
    ensure (entry.sourcePath.length > 0)
      (entry.testId ++ ": sourcePath is required.")
    ensure (entry.suiteType = SuiteType.unit ∨ entry.suiteType = SuiteType.e2e)
      (entry.testId ++ ": suiteType must be unit|e2e.")
    ensure (entry.result = Status.passed ∨ entry.result = Status.failed)
      (entry.testId ++ ": result must be passed|failed.")
    ensure (entry.workflowPath.length > 0)
      (entry.testId ++ ": workflowPath is required.")
    ensure (entry.runId.length > 0) (entry.testId ++ ": runId is required.")
    ensure (entry.jobName.length > 0)
      (entry.testId ++ ": jobName is required.")
    ensure (entry.sourceCommitSha.length ≥ 7)
      (entry.testId ++ ": sourceCommitSha is invalid.")
    ensure (env.parseDate entry.executedAt)
      (entry.testId ++ ": executedAt must be a valid ISO datetime.")
    ensure (entry.verificationCommand.length > 0)
      (entry.testId ++ ": verificationCommand is required.")
    ensure (entry.assertions.length > 0)
      (entry.testId ++ ": assertions must be a non-empty array.")
    let failedAssertions ←
      countFailedToolkit env entry.testId entry.assertions
    (if entry.result = Status.passed then
      ensure (failedAssertions = 0)
        (entry.testId ++ ": result=passed but found failed assertions.")
    else
      Except.ok ())
    ensure (entry.artifacts.length > 0)
      (entry.testId ++ ": artifacts must be a non-empty array.")
    ensure (entry.artifacts.any (fun a => a.format == ArtifactFormat.json))
      (entry.testId ++ ": missing json artifact.")
    checkArtifactsToolkit env testsDir cwd entry.testId entry.result
      entry.artifacts
    validateEntriesToolkit env testsDir cwd rest (entry.testId :: seen)

/-- `runValidateTestEvidence` (validate-test-evidence.ts lines 138-310),
from the point where the manifest file has been read and parsed. -/
def runValidateTestEvidence (env : FsEnv) (testsDir cwd : String)
    (requiredIds : List String) (manifest : TestEvidenceManifest) :
    Except String Unit := do
  ensure (env.parseDate manifest.generatedAt)
    "Manifest generatedAt must be a valid ISO datetime."
  ensure (manifest.testEvidence.length > 0)
    "Manifest testEvidence must not be empty."
  let seen ← validateEntriesToolkit env testsDir cwd manifest.testEvidence []
  checkRequiredIds "Required testId is missing from manifest: " requiredIds
    seen

/-!
## ManifestAggregator (src/toolkit/package/src/cli.ts,
`runMergeTestEvidenceManifests`) and the legacy merger (part_003)

Manifest discovery (`collectManifestFiles` plus the lexicographic sort) is
modeled by a list of file paths sorted with Lean's total order on `String`,
standing in for `localeCompare`.  `readManifest` stands for
`readFileSync` + `JSON.parse` of one manifest file (`none` = unreadable or
unparsable); a manifest whose `testEvidence` is not an array contributes
nothing (`testEvidence := none`).
-/

/-- A parsed manifest file as the mergers see it. -/
structure RawManifest where
  generatedAt : Option String
  testEvidence : Option (List TestEvidenceEntry)
deriving DecidableEq, Repr

/-- Lexicographic comparison of character lists by code point — the
model's total order on paths, standing in for `localeCompare`. -/
def charListLe : List Char → List Char → Bool
  | [], _ => true
  | _ :: _, [] => false
  | c :: cs, d :: ds =>
    if c.toNat < d.toNat then true
    else if d.toNat < c.toNat then false
    else charListLe cs ds

/-- The induced order on paths. -/
def pathLe (a b : String) : Prop := charListLe a.data b.data = true

instance pathLeDecidable : DecidableRel pathLe := fun a b =>
  inferInstanceAs (Decidable (charListLe a.data b.data = true))

/-- `manifestFiles.sort((a, b) => a.localeCompare(b))`. -/
def sortPaths (paths : List String) : List String :=
  paths.insertionSort pathLe

/-- The assertionId uniqueness loop of `validateEntry` (cli.ts lines
179-191). -/
def checkAssertionIds (context : String) :
    List TestAssertion → List String → Except String Unit
  | [], _ => Except.ok ()
  | assertion :: rest, assertionIds => do
    ensure (assertion.assertionId.length > 0)
      (context ++ ": assertionId is required.")
    ensure (¬ assertionIds.contains assertion.assertionId)
      (context ++ ": duplicate assertionId \x27" ++ assertion.assertionId ++
        "\x27.")
    checkAssertionIds context rest (assertion.assertionId :: assertionIds)

/-- `validateEntry` (cli.ts lines 148-192). -/
def validateEntry (parseDate : String → Bool) (sourceFile : String)
    (entry : TestEvidenceEntry) : Except String Unit := do
  ensure (entry.testId.length > 0) (sourceFile ++ ": testId is required.")
  ensure (entry.suiteType = SuiteType.unit ∨ entry.suiteType = SuiteType.e2e)
    (sourceFile ++ "/" ++ entry.testId ++ ": suiteType must be unit|e2e.")
  ensure (entry.result = Status.passed ∨ entry.result = Status.failed)
    (sourceFile ++ "/" ++ entry.testId ++ ": result must be passed|failed.")
  ensure (parseDate entry.executedAt)
    (sourceFile ++ "/" ++ entry.testId ++
      ": executedAt must be a valid ISO datetime.")
  ensure (entry.assertions.length > 0)
    (sourceFile ++ "/" ++ entry.testId ++
      ": assertions must be a non-empty array.")
  let failedAssertionCount :=
    (entry.assertions.filter (fun a => a.status == Status.failed)).length
  ensure (failedAssertionCount = 0)
    (sourceFile ++ "/" ++ entry.testId ++ ": found failed assertions (" ++
      toString failedAssertionCount ++ ").")
  checkAssertionIds (sourceFile ++ "/" ++ entry.testId) entry.assertions []

/-- The duplicate-testId error message (cli.ts lines 232-235). -/
def duplicateTestIdMessage (testId filePath : String) : String :=
  "Duplicate testId across manifests: \x27" ++ testId ++ "\x27 (" ++
    filePath ++ ")"

/-- The inner entry loop of the toolkit merge (cli.ts lines 230-238):
validate, reject duplicates against the cross-file `seenTestIds` set,
accumulate in input order. -/
def mergeEntriesFromFile (parseDate : String → Bool) (filePath : String) :
    List TestEvidenceEntry → List String →
    Except String (List TestEvidenceEntry × List String)
  | [], seen => Except.ok ([], seen)
  | entry :: rest, seen => do
    validateEntry parseDate filePath entry
    ensure (¬ seen.contains entry.testId)
      (duplicateTestIdMessage entry.testId filePath)
    let (tail, seenFinal) ←
      mergeEntriesFromFile parseDate filePath rest (entry.testId :: seen)
    Except.ok (entry :: tail, seenFinal)

/-- The file loop of the toolkit merge (cli.ts lines 227-240). -/
def mergeFiles (parseDate : String → Bool)
    (readManifest : String → Option RawManifest) :
    List String → List String →
    Except String (List TestEvidenceEntry × List String)
  | [], seen => Except.ok ([], seen)
  | filePath :: rest, seen =>
    match readManifest filePath with
    | none => Except.error ("Failed to read manifest: " ++ filePath)
    | some parsed =>
      match parsed.testEvidence with
      | none => mergeFiles parseDate readManifest rest seen
      | some entries => do
        let (merged, seen2) ←
          mergeEntriesFromFile parseDate filePath entries seen
        let (mergedTail, seenFinal) ←
          mergeFiles parseDate readManifest rest seen2
        Except.ok (merged ++ mergedTail, seenFinal)

/-- `runMergeTestEvidenceManifests` (cli.ts lines 213-256), from the point
where the manifest files have been discovered.  `now` models
`new Date().toISOString()`. -/
def runMergeTestEvidenceManifests (parseDate : String → Bool)
    (readManifest : String → Option RawManifest) (paths : List String)
    (now : String) : Except String TestEvidenceManifest := do
  let manifestFiles := sortPaths paths
  let (mergedEntries, seenTestIds) ←
    mergeFiles parseDate readManifest manifestFiles []
  checkRequiredIds "Required testId is missing from merged manifests: "
    requiredTestIds seenTestIds
  Except.ok (TestEvidenceManifest.mk now mergedEntries)

/-- One `deduped.set(entry.testId, entry)` step on a JS `Map` held as an
insertion-ordered association list: overwriting keeps the key's original
position, a new key is appended. -/
def jsMapSet (entries : List (String × TestEvidenceEntry)) (key : String)
    (value : TestEvidenceEntry) : List (String × TestEvidenceEntry) :=
  if entries.any (fun pair => pair.1 == key) then
    entries.map (fun pair => if pair.1 == key then (key, value) else pair)
  else
    entries ++ [(key, value)]

/-- The legacy dedupe (part_003 lines 62-65): last write wins, iteration
order is first-insertion order. -/
def dedupeLastWins (entries : List TestEvidenceEntry) :
    List TestEvidenceEntry :=
  (entries.foldl (fun acc entry => jsMapSet acc entry.testId entry) []).map
    (fun pair => pair.2)

/-- The file loop of the legacy merger (part_003 lines 55-60). -/
def legacyCollect (readManifest : String → Option RawManifest) :
    List String → Except String (List TestEvidenceEntry)
  | [] => Except.ok []
  | filePath :: rest =>
    match readManifest filePath with
    | none => Except.error ("Failed to read manifest: " ++ filePath)
    | some parsed => do
      let tail ← legacyCollect readManifest rest
      Except.ok ((parsed.testEvidence.getD []) ++ tail)

/-- The legacy merger's `run` (part_003 lines 49-74): no validation, no
duplicate rejection, no required-ids check — duplicates are silently
deduplicated with last-write-wins. -/
def legacyMergeRun (readManifest : String → Option RawManifest)
    (paths : List String) (now : String) :
    Except String TestEvidenceManifest := do
  let manifestFiles := sortPaths paths
  let mergedEntries ← legacyCollect readManifest manifestFiles
  Except.ok (TestEvidenceManifest.mk now (dedupeLastWins mergedEntries))

/-!
## SourceRunVerifier (part_004, `ingest-falcon-evidence`)

Only the deploy-job verification stage (lines 293-316) is modeled: the jobs
response has been fetched, and every violation of the required-job
allow-list is collected before a single error is raised.
-/

/-- `requiredDeployJobs` (part_004 lines 188-193). -/
def requiredDeployJobs : List String :=
  ["sign_and_attest", "deploy_api", "deploy_worker", "finalize_healthcheck"]

/-- The failure string for a missing required job. -/
def missingJobMessage (requiredJob : String) : String :=
  "missing required job \x27" ++ requiredJob ++ "\x27"

/-- The failure string for a required job with a non-success conclusion. -/
def badConclusionMessage (requiredJob : String) (conclusion : Option String) :
    String :=
  "job \x27" ++ requiredJob ++ "\x27 conclusion is \x27" ++
    conclusion.getD "unknown" ++ "\x27"

/-- The violation the allow-list loop records for one required job, if
any (part_004 lines 299-310). -/
def jobViolation (deployJobs : List WorkflowJob) (requiredJob : String) :
    Option String :=
  match deployJobs.find? (fun item => item.name == requiredJob) with
  | none => some (missingJobMessage requiredJob)
  | some job =>
    if job.conclusion == some "success" then none
    else some (badConclusionMessage requiredJob job.conclusion)

/-- The collected `deployFailures` array. -/
def deployJobFailures (deployJobs : List WorkflowJob) : List String :=
  requiredDeployJobs.filterMap (jobViolation deployJobs)

/-- Lines 312-316: raise one error enumerating every collected violation,
or succeed when there is none. -/
def verifyDeployJobs (deployRunId : String) (deployJobs : List WorkflowJob) :
    Except String Unit :=
  let deployFailures := deployJobFailures deployJobs
  if deployFailures.length > 0 then
    Except.error ("Deploy run " ++ deployRunId ++ " failed verification: " ++
      String.intercalate "; " deployFailures)
  else
    Except.ok ()

/-!
## HistorySnapshotter (part_007)
-/

/-- The `source` slice of the evidence payload the snapshotter reads
(every field optional, as in the source interface). -/
structure HistoryEvidenceSource where
  ref : Option String
  commitSha : Option String
deriving DecidableEq, Repr

/-- The `verification` slice the snapshotter reads. -/
structure HistoryEvidenceVerification where
  ciRunId : Option String
  deployRunId : Option String
deriving DecidableEq, Repr

/-- The evidence payload as `ensureCurrentEvidence` parses it. -/
structure HistoryEvidencePayload where
  generatedAt : String
  source : Option HistoryEvidenceSource
  verification : Option HistoryEvidenceVerification
deriving DecidableEq, Repr

/-- A `HistorySnapshot` index entry. -/
structure HistorySnapshot where
  snapshot : String
  generatedAt : String
  sourceRef : String
  sourceCommitSha : String
  ciRunId : String
  deployRunId : String
deriving DecidableEq, Repr

/-- `evidence.source?.commitSha ?? "unknown"` (part_007 line 87). -/
def historyCommitSha (evidence : HistoryEvidencePayload) : String :=
  ((evidence.source.bind (fun s => s.commitSha)).getD "unknown")

/-- The snapshot directory name (part_007 lines 86-89): formatted
timestamp, a dash, and the first 12 characters of the commit sha.  `fmt`
models `formatSnapshotTimestamp` (ISO re-rendering with separators
stripped — an external date primitive). -/
def snapshotNameOf (fmt : String → String)
    (evidence : HistoryEvidencePayload) : String :=
  fmt evidence.generatedAt ++ "-" ++ (historyCommitSha evidence).take 12

/-- The new index entry (part_007 lines 117-124). -/
def newHistoryEntry (fmt : String → String)
    (evidence : HistoryEvidencePayload) : HistorySnapshot :=
  { snapshot := "history/" ++ snapshotNameOf fmt evidence
    generatedAt := evidence.generatedAt
    sourceRef := (evidence.source.bind (fun s => s.ref)).getD "unknown"
    sourceCommitSha := historyCommitSha evidence
    ciRunId := (evidence.verification.bind (fun v => v.ciRunId)).getD ""
    deployRunId :=
      (evidence.verification.bind (fun v => v.deployRunId)).getD "" }

/-- The index update of `run` (part_007 lines 113-131): drop any entry for
the same snapshot name, then prepend the new entry. -/
def historyRun (fmt : String → String) (evidence : HistoryEvidencePayload)
    (snapshots : List HistorySnapshot) : List HistorySnapshot :=
  let snapshotName := snapshotNameOf fmt evidence
  let kept := snapshots.filter
    (fun item => item.snapshot ≠ "history/" ++ snapshotName)
  newHistoryEntry fmt evidence :: kept

/-!
## General inversion lemmas for the `Except` embedding
-/

theorem except_bind_ok_iff {α β : Type} {x : Except String α}
    {k : α → Except String β} {b : β} :
    (x >>= k) = Except.ok b ↔ ∃ a, x = Except.ok a ∧ k a = Except.ok b := by
  cases x <;> simp [Bind.bind, Except.bind]

theorem except_bind_error_iff {α β : Type} {x : Except String α}
    {k : α → Except String β} {e : String} :
    (x >>= k) = Except.error e ↔
      x = Except.error e ∨ ∃ a, x = Except.ok a ∧ k a = Except.error e := by
  cases x <;> simp [Bind.bind, Except.bind]

theorem if_ok {β : Type} {c : Prop} [Decidable c] {x : Except String β}
    {msg : String} {b : β}
    (h : (if c then x else Except.error msg) = Except.ok b) :
    c ∧ x = Except.ok b := by
  split at h
  · exact ⟨‹c›, h⟩
  · exact absurd h (by simp)

theorem status_ne_failed_iff {s : Status} :
    s ≠ Status.failed ↔ s = Status.passed := by
  cases s <;> simp

theorem hasFailedAssertion_eq_false_iff {l : List TestAssertion} :
    hasFailedAssertion l = false ↔ ∀ a ∈ l, a.status = Status.passed := by
  simp only [hasFailedAssertion, List.any_eq_false]
  constructor
  · intro h a ha
    exact status_ne_failed_iff.mp (by simpa using h a ha)
  · intro h a ha
    simp [h a ha]

theorem computeEntryResult_eq_passed_iff {jobResult : Status}
    {assertions : List TestAssertion} :
    computeEntryResult jobResult assertions = Status.passed ↔
      (jobResult = Status.passed ∧
        ∀ a ∈ assertions, a.status = Status.passed) := by
  unfold computeEntryResult
  split
  · rename_i hcond
    simp only [Bool.and_eq_true, beq_iff_eq, Bool.not_eq_true'] at hcond
    constructor
    · intro _
      exact ⟨hcond.1, hasFailedAssertion_eq_false_iff.mp hcond.2⟩
    · intro _
      rfl
  · rename_i hcond
    simp only [Bool.and_eq_true, beq_iff_eq, Bool.not_eq_true'] at hcond
    constructor
    · intro h
      exact absurd h (by simp)
    · intro ⟨h1, h2⟩
      exact absurd ⟨h1, hasFailedAssertion_eq_false_iff.mpr h2⟩ hcond

/-!
## Soundness of the toolkit manifest validator
-/

theorem countFailedToolkit_zero_sound {env : FsEnv} {testId : String}
    {l : List TestAssertion}
    (h : countFailedToolkit env testId l = Except.ok 0) :
    ∀ a ∈ l, a.status = Status.passed := by
  induction l with
  | nil => intro a ha; simp at ha
  | cons assertion rest ih =>
    intro a ha
    simp only [countFailedToolkit] at h
    rcases except_bind_ok_iff.mp h with ⟨u, _, h2⟩
    rcases except_bind_ok_iff.mp h2 with ⟨n, hrest, h3⟩
    split at h3
    · exact absurd h3 (by simp)
    · rename_i hne
      have hn0 : n = 0 := by simpa using h3
      rcases List.mem_cons.mp ha with hae | hmem
      · subst hae
        exact status_ne_failed_iff.mp hne
      · exact ih (hn0 ▸ hrest) a hmem

theorem checkArtifactsToolkit_sha_sound {env : FsEnv}
    {testsDir cwd testId : String} {result : Status} {u : Unit} :
    ∀ {l : List TestArtifact},
      checkArtifactsToolkit env testsDir cwd testId result l = Except.ok u →
      ∀ art ∈ l, ∃ bytes,
        env.readFile (resolveArtifactPath testsDir cwd art.path) =
          some bytes ∧ env.sha256Of bytes = art.sha256 := by
  intro l
  induction l with
  | nil => intro _ a ha; simp at ha
  | cons artifact rest ih =>
    intro h art hart
    simp only [checkArtifactsToolkit, ensure_bind] at h
    obtain ⟨_, h⟩ := if_ok h
    obtain ⟨_, h⟩ := if_ok h
    obtain ⟨_, h⟩ := if_ok h
    cases hr : env.readFile (resolveArtifactPath testsDir cwd artifact.path)
      with
    | none =>
      rw [hr] at h
      exact absurd h (by simp)
    | some bytes =>
      rw [hr] at h
      obtain ⟨hsha, h⟩ := if_ok h
      rcases except_bind_ok_iff.mp h with ⟨_, _, hrec⟩
      rcases List.mem_cons.mp hart with hae | hmem
      · subst hae
        exact ⟨bytes, hr, hsha⟩
      · exact ih hrec art hmem

theorem validateEntriesToolkit_sound {env : FsEnv} {testsDir cwd : String} :
    ∀ {l : List TestEvidenceEntry} {seen seenF : List String},
      validateEntriesToolkit env testsDir cwd l seen = Except.ok seenF →
      ∀ e ∈ l,
        (e.result = Status.passed →
          ∀ a ∈ e.assertions, a.status = Status.passed) ∧
        (∀ art ∈ e.artifacts, ∃ bytes,
          env.readFile (resolveArtifactPath testsDir cwd art.path) =
            some bytes ∧ env.sha256Of bytes = art.sha256) := by
  intro l
  induction l with
  | nil => intro seen seenF _ e he; simp at he
  | cons entry rest ih =>
    intro seen seenF h e he
    simp only [validateEntriesToolkit, ensure_bind] at h
    obtain ⟨_, h⟩ := if_ok h
    obtain ⟨_, h⟩ := if_ok h
    obtain ⟨_, h⟩ := if_ok h
    obtain ⟨_, h⟩ := if_ok h
    obtain ⟨_, h⟩ := if_ok h
    obtain ⟨_, h⟩ := if_ok h
    obtain ⟨_, h⟩ := if_ok h
    obtain ⟨_, h⟩ := if_ok h
    obtain ⟨_, h⟩ := if_ok h
    obtain ⟨_, h⟩ := if_ok h
    obtain ⟨_, h⟩ := if_ok h
    obtain ⟨_, h⟩ := if_ok h
    rcases except_bind_ok_iff.mp h with ⟨f, hcount, h⟩
    rcases except_bind_ok_iff.mp h with ⟨_, hcond, h⟩
    obtain ⟨_, h⟩ := if_ok h
    obtain ⟨_, h⟩ := if_ok h
    rcases except_bind_ok_iff.mp h with ⟨_, hart, hrec⟩
    rcases List.mem_cons.mp he with hee | hmem
    · subst hee
      refine ⟨fun hres => ?_, checkArtifactsToolkit_sha_sound hart⟩
      rw [if_pos hres] at hcond
      have hf0 : f = 0 := ensure_ok hcond
      exact countFailedToolkit_zero_sound (hf0 ▸ hcount)
    · exact ih hrec e hmem

theorem runValidateTestEvidence_ok_entries {env : FsEnv}
    {testsDir cwd : String} {requiredIds : List String}
    {manifest : TestEvidenceManifest} {u : Unit}
    (h : runValidateTestEvidence env testsDir cwd requiredIds manifest =
      Except.ok u) :
    ∃ seenF, validateEntriesToolkit env testsDir cwd manifest.testEvidence []
      = Except.ok seenF := by
  simp only [runValidateTestEvidence, ensure_bind] at h
  obtain ⟨_, h⟩ := if_ok h
  obtain ⟨_, h⟩ := if_ok h
  rcases except_bind_ok_iff.mp h with ⟨seenF, hentries, _⟩
  exact ⟨seenF, hentries⟩

/-!
## Soundness of the composer validation
-/

theorem tallyAssertions_zero_sound {env : FsEnv} {testId : String}
    {p0 : Nat} :
    ∀ {l : List TestAssertion},
      tallyAssertions env testId l = Except.ok (p0, 0) →
      ∀ a ∈ l, a.status = Status.passed := by
  intro l
  induction l generalizing p0 with
  | nil => intro _ a ha; simp at ha
  | cons assertion rest ih =>
    intro h a ha
    simp only [tallyAssertions] at h
    rcases except_bind_ok_iff.mp h with ⟨_, _, h2⟩
    rcases except_bind_ok_iff.mp h2 with ⟨pf, hrest, h3⟩
    obtain ⟨p, f⟩ := pf
    split at h3
    · rename_i hpass
      have hf0 : f = 0 := by
        have := h3
        simp only [Except.ok.injEq, Prod.mk.injEq] at this
        exact this.2
      rcases List.mem_cons.mp ha with hae | hmem
      · subst hae; exact hpass
      · exact ih (hf0 ▸ hrest) a hmem
    · exact absurd h3 (by simp)

theorem checkArtifactsComposer_sha_sound {env : FsEnv}
    {testsDir manifestDir testId : String} {result : Status} {u : Unit} :
    ∀ {l : List TestArtifact},
      checkArtifactsComposer env testsDir manifestDir testId result l =
        Except.ok u →
      ∀ art ∈ l, ∃ bytes,
        env.readFile (resolveLocalArtifactPath testsDir manifestDir art.path)
          = some bytes ∧ env.sha256Of bytes = art.sha256 := by
  intro l
  induction l with
  | nil => intro _ a ha; simp at ha
  | cons artifact rest ih =>
    intro h art hart
    simp only [checkArtifactsComposer, ensure_bind] at h
    obtain ⟨_, h⟩ := if_ok h
    obtain ⟨_, h⟩ := if_ok h
    obtain ⟨_, h⟩ := if_ok h
    cases hr : env.readFile
        (resolveLocalArtifactPath testsDir manifestDir artifact.path) with
    | none =>
      rw [hr] at h
      exact absurd h (by simp)
    | some bytes =>
      rw [hr] at h
      obtain ⟨hsha, h⟩ := if_ok h
      rcases except_bind_ok_iff.mp h with ⟨_, _, hrec⟩
      rcases List.mem_cons.mp hart with hae | hmem
      · subst hae
        exact ⟨bytes, hr, hsha⟩
      · exact ih hrec art hmem


theorem validateEntriesComposer_sound {env : FsEnv}
    {testsDir manifestDir : String} :
    ∀ {l : List TestEvidenceEntry} {seen : List String} {t p f : Nat}
      {bt : List AssertionSummaryByTest} {seenF : List String},
      validateEntriesComposer env testsDir manifestDir l seen =
        Except.ok (t, p, f, bt, seenF) →
      (∀ e ∈ l, e.result = Status.passed ∧
        (∀ a ∈ e.assertions, a.status = Status.passed) ∧
        (∀ art ∈ e.artifacts, ∃ bytes,
          env.readFile
              (resolveLocalArtifactPath testsDir manifestDir art.path) =
            some bytes ∧ env.sha256Of bytes = art.sha256)) ∧
      (∀ id, id ∈ seenF ↔ id ∈ seen ∨ ∃ e ∈ l, e.testId = id) := by
  intro l
  induction l with
  | nil =>
    intro seen t p f bt seenF h
    simp only [validateEntriesComposer, Except.ok.injEq, Prod.mk.injEq] at h
    obtain ⟨-, -, -, -, hseen⟩ := h
    subst hseen
    constructor
    · intro e he; simp at he
    · intro id; simp
  | cons entry rest ih =>
    intro seen t p f bt seenF h
    simp only [validateEntriesComposer, ensure_bind] at h
    obtain ⟨_, h⟩ := if_ok h
    obtain ⟨_, h⟩ := if_ok h
    obtain ⟨_, h⟩ := if_ok h
    obtain ⟨_, h⟩ := if_ok h
    obtain ⟨_, h⟩ := if_ok h
    rcases except_bind_ok_iff.mp h with ⟨pf, htally, h⟩
    obtain ⟨localPassed, localFailed⟩ := pf
    obtain ⟨hlf0, h⟩ := if_ok h
    obtain ⟨hres, h⟩ := if_ok h
    obtain ⟨_, h⟩ := if_ok h
    rcases except_bind_ok_iff.mp h with ⟨_, hart, h⟩
    rcases except_bind_ok_iff.mp h with ⟨tup, hrec, hfin⟩
    obtain ⟨t1, p1, f1, bt1, seenF1⟩ := tup
    simp only [Except.ok.injEq, Prod.mk.injEq] at hfin
    obtain ⟨-, -, -, -, hseen⟩ := hfin
    subst hseen
    have hlf : localFailed = 0 := by simpa using hlf0
    subst hlf
    have ihall := ih hrec
    constructor
    · intro e he
      rcases List.mem_cons.mp he with hee | hmem
      · subst hee
        exact ⟨hres, tallyAssertions_zero_sound htally,
          checkArtifactsComposer_sha_sound hart⟩
      · exact ihall.1 e hmem
    · intro id
      rw [ihall.2 id]
      constructor
      · intro hcase
        rcases hcase with hcase | ⟨e, he, heq⟩
        · rcases List.mem_cons.mp hcase with h1 | h1
          · exact Or.inr ⟨entry, List.mem_cons_self entry rest, h1.symm⟩
          · exact Or.inl h1
        · exact Or.inr ⟨e, List.mem_cons_of_mem entry he, heq⟩
      · intro hcase
        rcases hcase with h1 | ⟨e, he, heq⟩
        · exact Or.inl (List.mem_cons_of_mem entry.testId h1)
        · rcases List.mem_cons.mp he with h2 | h2
          · subst h2
            exact Or.inl (heq ▸ List.mem_cons_self e.testId seen)
          · exact Or.inr ⟨e, h2, heq⟩

theorem checkRequiredIds_ok_sound {errPrefix : String} {u : Unit} :
    ∀ {required seen : List String},
      checkRequiredIds errPrefix required seen = Except.ok u →
      ∀ r ∈ required, seen.contains r = true := by
  intro required
  induction required with
  | nil => intro seen _ r hr; simp at hr
  | cons requiredTestId rest ih =>
    intro seen h r hr
    simp only [checkRequiredIds] at h
    split at h
    · rename_i hc
      rcases List.mem_cons.mp hr with hre | hmem
      · subst hre; exact hc
      · exact ih h r hmem
    · exact absurd h (by simp)

theorem validateAndSummarize_sound {env : FsEnv}
    {testsDir manifestDir : String} {testEvidence : List TestEvidenceEntry}
    {summary : AssertionSummary}
    (h : validateAndSummarizeTestEvidence env testsDir manifestDir
      testEvidence = Except.ok summary) :
    (∀ e ∈ testEvidence, e.result = Status.passed ∧
      (∀ a ∈ e.assertions, a.status = Status.passed) ∧
      (∀ art ∈ e.artifacts, ∃ bytes,
        env.readFile (resolveLocalArtifactPath testsDir manifestDir art.path)
          = some bytes ∧ env.sha256Of bytes = art.sha256)) ∧
    (∀ req ∈ requiredTestIds, ∃ e ∈ testEvidence, e.testId = req) := by
  simp only [validateAndSummarizeTestEvidence, ensure_bind] at h
  obtain ⟨_, h⟩ := if_ok h
  rcases except_bind_ok_iff.mp h with ⟨out, hentries, h⟩
  obtain ⟨t, p, f, bt, seenF⟩ := out
  rcases except_bind_ok_iff.mp h with ⟨_, hreq, _⟩
  have hsound := validateEntriesComposer_sound hentries
  refine ⟨hsound.1, fun req hr => ?_⟩
  have hc := checkRequiredIds_ok_sound hreq req hr
  have hmem : req ∈ seenF := by simpa using hc
  rcases (hsound.2 req).mp hmem with h1 | h2
  · simp at h1
  · exact h2

deriving instance DecidableEq for Except

/-!
## Concrete fixtures used by the witness and counterexample theorems
-/

/-- A structurally valid, passed assertion. -/
def sampleAssertion : TestAssertion :=
  { assertionId := "a1"
    name := "n"
    status := Status.passed
    expected := "e"
    actual := "x"
    evidenceRef :=
      { filePath := "f", matcherType := MatcherType.includes, matcher := "m" }
    verifiedAt := "2026-01-01T00:00:00Z" }

/-- A structurally valid, failed assertion. -/
def sampleFailedAssertion : TestAssertion :=
  { sampleAssertion with assertionId := "a2", status := Status.failed }

/-- Sixty-four lowercase hex characters, a well-formed recorded SHA-256. -/
def hexA : String :=
  "aaaaaaaaaaaaaaaaaaaaaaaaaaaaaaaaaaaaaaaaaaaaaaaaaaaaaaaaaaaaaaaa"

/-- A fully valid evidence entry for the given test id, carrying one JSON
artifact at the producer's conventional path. -/
def sampleEntry (id : String) : TestEvidenceEntry :=
  { testId := id
    sourcePath := "s"
    suiteType := SuiteType.unit
    result := Status.passed
    workflowPath := "w"
    runId := "1"
    jobName := "j"
    sourceCommitSha := "1234567"
    executedAt := "2026-01-01T00:00:00Z"
    artifacts :=
      [{ format := ArtifactFormat.json, path := "current/tests/" ++ id ++
          ".json", sha256 := hexA }]
    verificationCommand := "c"
    assertions := [sampleAssertion] }

/-- One valid entry per required test id. -/
def fiveEntries : List TestEvidenceEntry :=
  [sampleEntry "permission-analyzer-unit",
   sampleEntry "ttl-indexes-persistence-unit",
   sampleEntry "ttl-indexes-api-unit",
   sampleEntry "device-sync-e2e",
   sampleEntry "sos-e2e"]

/-- The parsed-artifact payload matching `sampleEntry id`. -/
def samplePayload (id : String) : ArtifactPayload :=
  { payloadTestId := some id
    payloadResult := some Status.passed
    payloadAssertions := some [sampleAssertion] }

/-- A filesystem environment under which `fiveEntries` fully validates:
each artifact file exists, hashes to its recorded value, and parses to a
payload consistent with its entry. -/
def envC : FsEnv :=
  { readFile := fun p =>
      if p = "td/permission-analyzer-unit.json" then some [0]
      else if p = "td/ttl-indexes-persistence-unit.json" then some [1]
      else if p = "td/ttl-indexes-api-unit.json" then some [2]
      else if p = "td/device-sync-e2e.json" then some [3]
      else if p = "td/sos-e2e.json" then some [4]
      else none
    sha256Of := fun _ => hexA
    parseArtifact := fun bytes =>
      if bytes = [0] then some (samplePayload "permission-analyzer-unit")
      else if bytes = [1] then
        some (samplePayload "ttl-indexes-persistence-unit")
      else if bytes = [2] then some (samplePayload "ttl-indexes-api-unit")
      else if bytes = [3] then some (samplePayload "device-sync-e2e")
      else if bytes = [4] then some (samplePayload "sos-e2e")
      else none
    parseDate := fun _ => true }

/-- The summary the composer computes for `fiveEntries`. -/
def sampleSummary : AssertionSummary :=
  { total := 5
    passed := 5
    failed := 0
    byTest :=
      [{ testId := "permission-analyzer-unit", total := 1, passed := 1,
          failed := 0 },
       { testId := "ttl-indexes-persistence-unit", total := 1, passed := 1,
          failed := 0 },
       { testId := "ttl-indexes-api-unit", total := 1, passed := 1,
          failed := 0 },
       { testId := "device-sync-e2e", total := 1, passed := 1, failed := 0 },
       { testId := "sos-e2e", total := 1, passed := 1, failed := 0 }] }




/-!
## Claim theorems
-/

/-- Claim C1: a produced test evidence entry has result "passed" exactly
when the job-level outcome flag is passing and no assertion evaluated to
"failed" (so result "passed" implies every assertion passed); and every
entry accepted by the manifest validator satisfies: result "passed"
implies every assertion has status "passed". -/
theorem c1_result_passed_iff_all_assertions_passed :
    (∀ (env : ProducerEnv) (jobResult : Status)
        (runId jobName sourceCommitSha executedAt workflowPath : String)
        (test : TestDefinition),
      (produceEntry env jobResult runId jobName sourceCommitSha executedAt
          workflowPath test).result = Status.passed ↔
        (jobResult = Status.passed ∧
          ∀ a ∈ (produceEntry env jobResult runId jobName sourceCommitSha
              executedAt workflowPath test).assertions,
            a.status = Status.passed)) ∧
    (∀ (env : FsEnv) (testsDir cwd : String) (requiredIds : List String)
        (manifest : TestEvidenceManifest) (u : Unit),
      runValidateTestEvidence env testsDir cwd requiredIds manifest =
          Except.ok u →
      ∀ e ∈ manifest.testEvidence, e.result = Status.passed →
        ∀ a ∈ e.assertions, a.status = Status.passed) := by
  constructor
  · intro env jobResult runId jobName sourceCommitSha executedAt workflowPath
      test
    simp only [produceEntry]
    exact computeEntryResult_eq_passed_iff
  · intro env testsDir cwd requiredIds manifest u h e he hres a ha
    obtain ⟨seenF, hentries⟩ := runValidateTestEvidence_ok_entries h
    exact (validateEntriesToolkit_sound hentries e he).1 hres a ha

/-- A producer environment for the witness below. -/
def producerEnvSample : ProducerEnv :=
  { readSource := fun _ => "IssueCode.LOCATION_DENIED"
    matcherTest := fun _ _ _ => true
    writeArtifacts := fun _ _ _ => []
    verificationCommandFor := fun _ => "cmd" }

/-- A test definition for the witness below. -/
def testDefSample : TestDefinition :=
  { testId := "permission-analyzer-unit"
    sourcePath := "p"
    suiteType := SuiteType.unit
    assertions :=
      [{ assertionId := "a1", name := "n", filePath := "f",
          matcherType := MatcherType.includes, matcher := "m",
          expected := "e" }] }

set_option maxRecDepth 1000000 in
theorem c1_witness :
    ((produceEntry producerEnvSample Status.passed "r" "j" "sha" "t" "w"
        testDefSample).result = Status.passed ↔
      (Status.passed = Status.passed ∧
        ∀ a ∈ (produceEntry producerEnvSample Status.passed "r" "j" "sha"
            "t" "w" testDefSample).assertions,
          a.status = Status.passed)) ∧
    (∀ e ∈ (TestEvidenceManifest.mk "g" fiveEntries).testEvidence,
      e.result = Status.passed →
      ∀ a ∈ e.assertions, a.status = Status.passed) :=
  ⟨c1_result_passed_iff_all_assertions_passed.1 producerEnvSample
      Status.passed "r" "j" "sha" "t" "w" testDefSample,
   c1_result_passed_iff_all_assertions_passed.2 envC "td" "cw"
      requiredTestIds (TestEvidenceManifest.mk "g" fiveEntries) ()
      (by decide)⟩

/-- Claim C2: whenever some entry contains a failed assertion, or a
required test id is missing, or a recorded artifact hash does not match
the artifact bytes on disk, the composer raises before writing anything:
it returns an error and its write list is empty. -/
theorem c2_composer_atomic_on_error :
    ∀ (env : FsEnv) (testsDir manifestDir : String) (ingest : IngestOutput)
      (testManifest : RawTestManifest) (now : String),
      ((∃ e ∈ testManifest.testEvidence.getD [], ∃ a ∈ e.assertions,
          a.status = Status.failed) ∨
        (∃ req ∈ requiredTestIds, ∀ e ∈ testManifest.testEvidence.getD [],
          e.testId ≠ req) ∨
        (∃ e ∈ testManifest.testEvidence.getD [], ∃ art ∈ e.artifacts,
          ∃ bytes, env.readFile
              (resolveLocalArtifactPath testsDir manifestDir art.path) =
            some bytes ∧ env.sha256Of bytes ≠ art.sha256)) →
      ∃ msg, composerRun env testsDir manifestDir ingest testManifest now =
          Except.error msg ∧
        composerWrites
          (composerRun env testsDir manifestDir ingest testManifest now) =
          [] := by
  intro env testsDir manifestDir ingest testManifest now hbad
  cases hrun : composerRun env testsDir manifestDir ingest testManifest now
    with
  | error msg =>
    exact ⟨msg, rfl, rfl⟩
  | ok pair =>
    exfalso
    simp only [composerRun] at hrun
    rcases except_bind_ok_iff.mp hrun with ⟨summary, hval, _⟩
    have hsound := validateAndSummarize_sound hval
    rcases hbad with ⟨e, he, a, ha, hfail⟩ | ⟨req, hreq, hnone⟩ |
      ⟨e, he, art, hart, bytes, hread, hne⟩
    · have := (hsound.1 e he).2.1 a ha
      rw [this] at hfail
      exact Status.noConfusion hfail
    · obtain ⟨e, he, heq⟩ := hsound.2 req hreq
      exact hnone e he heq
    · obtain ⟨bytes2, hread2, hsha⟩ := (hsound.1 e he).2.2 art hart
      rw [hread] at hread2
      have : bytes = bytes2 := by injection hread2
      subst this
      exact hne hsha

/-- A trivial filesystem environment (no files). -/
def envEmpty : FsEnv :=
  { readFile := fun _ => none
    sha256Of := fun _ => ""
    parseArtifact := fun _ => none
    parseDate := fun _ => true }

/-- An entry carrying a failed assertion, for the C2 witness. -/
def entryWithFailure : TestEvidenceEntry :=
  { sampleEntry "sos-e2e" with
      result := Status.failed
      assertions := [sampleFailedAssertion] }

/-- An ingest record for witnesses (one successful CI run, no jobs). -/
def ingestSample : IngestOutput :=
  { ci := { runId := "1", conclusion := some "success" }
    deploy := { runId := "2", jobs := [] } }

set_option maxRecDepth 1000000 in
theorem c2_witness :
    ∃ msg, composerRun envEmpty "td" "md" ingestSample
        (RawTestManifest.mk (some [entryWithFailure])) "now" =
        Except.error msg ∧
      composerWrites (composerRun envEmpty "td" "md" ingestSample
        (RawTestManifest.mk (some [entryWithFailure])) "now") = [] :=
  c2_composer_atomic_on_error envEmpty "td" "md" ingestSample
    (RawTestManifest.mk (some [entryWithFailure])) "now"
    (Or.inl ⟨entryWithFailure, by decide, sampleFailedAssertion, by decide,
      rfl⟩)

/-- Claim C3: every artifact accepted by the composer (and by the manifest
validator) has its recorded sha256 equal to the hash recomputed from the
artifact bytes on disk; an artifact whose recomputed hash differs makes
the composer validation fail. -/
theorem c3_sha256_roundtrip_integrity :
    (∀ (env : FsEnv) (testsDir manifestDir : String)
        (testEvidence : List TestEvidenceEntry) (summary : AssertionSummary),
      validateAndSummarizeTestEvidence env testsDir manifestDir testEvidence
          = Except.ok summary →
      ∀ e ∈ testEvidence, ∀ art ∈ e.artifacts, ∃ bytes,
        env.readFile (resolveLocalArtifactPath testsDir manifestDir art.path)
          = some bytes ∧ env.sha256Of bytes = art.sha256) ∧
    (∀ (env : FsEnv) (testsDir cwd : String) (requiredIds : List String)
        (manifest : TestEvidenceManifest) (u : Unit),
      runValidateTestEvidence env testsDir cwd requiredIds manifest =
          Except.ok u →
      ∀ e ∈ manifest.testEvidence, ∀ art ∈ e.artifacts, ∃ bytes,
        env.readFile (resolveArtifactPath testsDir cwd art.path) = some bytes
          ∧ env.sha256Of bytes = art.sha256) ∧
    (∀ (env : FsEnv) (testsDir manifestDir : String)
        (testEvidence : List TestEvidenceEntry),
      (∃ e ∈ testEvidence, ∃ art ∈ e.artifacts, ∃ bytes,
        env.readFile (resolveLocalArtifactPath testsDir manifestDir art.path)
          = some bytes ∧ env.sha256Of bytes ≠ art.sha256) →
      ∃ msg, validateAndSummarizeTestEvidence env testsDir manifestDir
        testEvidence = Except.error msg) := by
  refine ⟨?_, ?_, ?_⟩
  · intro env testsDir manifestDir testEvidence summary h e he art hart
    exact ((validateAndSummarize_sound h).1 e he).2.2 art hart
  · intro env testsDir cwd requiredIds manifest u h e he art hart
    obtain ⟨seenF, hentries⟩ := runValidateTestEvidence_ok_entries h
    exact (validateEntriesToolkit_sound hentries e he).2 art hart
  · intro env testsDir manifestDir testEvidence hbad
    cases hval : validateAndSummarizeTestEvidence env testsDir manifestDir
      testEvidence with
    | error msg => exact ⟨msg, rfl⟩
    | ok summary =>
      exfalso
      obtain ⟨e, he, art, hart, bytes, hread, hne⟩ := hbad
      obtain ⟨bytes2, hread2, hsha⟩ :=
        ((validateAndSummarize_sound hval).1 e he).2.2 art hart
      rw [hread] at hread2
      have : bytes = bytes2 := by injection hread2
      subst this
      exact hne hsha

set_option maxRecDepth 1000000 in
theorem c3_witness :
    (∀ e ∈ fiveEntries, ∀ art ∈ e.artifacts, ∃ bytes,
      envC.readFile (resolveLocalArtifactPath "td" "md" art.path) =
        some bytes ∧ envC.sha256Of bytes = art.sha256) ∧
    (∀ e ∈ (TestEvidenceManifest.mk "g" fiveEntries).testEvidence,
      ∀ art ∈ e.artifacts, ∃ bytes,
      envC.readFile (resolveArtifactPath "td" "cw" art.path) = some bytes ∧
        envC.sha256Of bytes = art.sha256) :=
  ⟨c3_sha256_roundtrip_integrity.1 envC "td" "md" fiveEntries sampleSummary
      (by decide),
   c3_sha256_roundtrip_integrity.2.1 envC "td" "cw" requiredTestIds
      (TestEvidenceManifest.mk "g" fiveEntries) () (by decide)⟩

/-- Claim C10: the job-level outcome flag is failing only for the exact
string "failed"; any other value of EVIDENCE_RESULT (unset included)
coerces to "passed", and with all static assertions matching such a run
still produces entries with result "passed". -/
theorem c10_evidence_result_exact_string_match :
    ∀ (raw : Option String),
      (jobResultOfEnv raw = Status.failed ↔ raw = some "failed") ∧
      (∀ assertions : List TestAssertion, raw ≠ some "failed" →
        (∀ a ∈ assertions, a.status = Status.passed) →
        computeEntryResult (jobResultOfEnv raw) assertions =
          Status.passed) := by
  intro raw
  have hiff : jobResultOfEnv raw = Status.failed ↔ raw = some "failed" := by
    cases raw with
    | none => simp [jobResultOfEnv, Option.getD]
    | some s =>
      by_cases hs : s = "failed"
      · subst hs; simp [jobResultOfEnv]
      · simp [jobResultOfEnv, hs]
  refine ⟨hiff, fun assertions hne hall => ?_⟩
  have hpassed : jobResultOfEnv raw = Status.passed := by
    cases hj : jobResultOfEnv raw with
    | passed => rfl
    | failed => exact absurd (hiff.mp hj) hne
  rw [hpassed]
  exact computeEntryResult_eq_passed_iff.mpr ⟨rfl, hall⟩

theorem c10_witness :
    (jobResultOfEnv (some "FAILED") = Status.failed ↔
      some "FAILED" = some "failed") ∧
    computeEntryResult (jobResultOfEnv (some "FAILED")) [sampleAssertion] =
      Status.passed :=
  ⟨(c10_evidence_result_exact_string_match (some "FAILED")).1,
   (c10_evidence_result_exact_string_match (some "FAILED")).2
      [sampleAssertion] (by decide) (by decide)⟩

/-- Claim C6: the deploy-job check walks the whole required-job allow-list
collecting a violation for every missing or non-success required job, and
the error it raises enumerates the complete collected list (joined with
"; "), not only the first violation. -/
theorem c6_deploy_job_violations_collected_exhaustively :
    ∀ (deployRunId : String) (deployJobs : List WorkflowJob),
      (∀ requiredJob ∈ requiredDeployJobs,
        deployJobs.find? (fun item => item.name == requiredJob) = none →
        missingJobMessage requiredJob ∈ deployJobFailures deployJobs) ∧
      (∀ requiredJob ∈ requiredDeployJobs, ∀ job,
        deployJobs.find? (fun item => item.name == requiredJob) = some job →
        job.conclusion ≠ some "success" →
        badConclusionMessage requiredJob job.conclusion ∈
          deployJobFailures deployJobs) ∧
      (deployJobFailures deployJobs ≠ [] →
        verifyDeployJobs deployRunId deployJobs =
          Except.error ("Deploy run " ++ deployRunId ++
            " failed verification: " ++
            String.intercalate "; " (deployJobFailures deployJobs))) ∧
      (deployJobFailures deployJobs = [] →
        verifyDeployJobs deployRunId deployJobs = Except.ok ()) := by
  intro deployRunId deployJobs
  refine ⟨?_, ?_, ?_, ?_⟩
  · intro requiredJob hreq hfind
    exact List.mem_filterMap.mpr
      ⟨requiredJob, hreq, by simp [jobViolation, hfind]⟩
  · intro requiredJob hreq job hfind hne
    have hbeq : (job.conclusion == some "success") = false :=
      beq_eq_false_iff_ne.mpr hne
    exact List.mem_filterMap.mpr
      ⟨requiredJob, hreq, by simp [jobViolation, hfind, hbeq]⟩
  · intro hne
    unfold verifyDeployJobs
    rw [if_pos (List.length_pos.mpr hne)]
  · intro hnil
    unfold verifyDeployJobs
    rw [if_neg]
    simp [hnil]

/-- Jobs response for the C6 witness: one required job missing, one with a
failing conclusion. -/
def jobsSample : List WorkflowJob :=
  [{ name := "sign_and_attest", status := "completed",
      conclusion := some "success" },
   { name := "deploy_worker", status := "completed",
      conclusion := some "failure" }]

theorem c6_witness :
    missingJobMessage "deploy_api" ∈ deployJobFailures jobsSample ∧
    badConclusionMessage "deploy_worker" (some "failure") ∈
      deployJobFailures jobsSample ∧
    verifyDeployJobs "42" jobsSample =
      Except.error ("Deploy run " ++ "42" ++ " failed verification: " ++
        String.intercalate "; " (deployJobFailures jobsSample)) :=
  ⟨(c6_deploy_job_violations_collected_exhaustively "42" jobsSample).1
      "deploy_api" (by decide) (by decide),
   (c6_deploy_job_violations_collected_exhaustively "42" jobsSample).2.1
      "deploy_worker" (by decide)
      { name := "deploy_worker", status := "completed",
        conclusion := some "failure" } (by decide) (by decide),
   (c6_deploy_job_violations_collected_exhaustively "42" jobsSample).2.2.1
      (by decide)⟩

/-- A summary with one failed assertion, for the C8 counterexample. -/
def summaryWithFailure : AssertionSummary :=
  { total := 2, passed := 1, failed := 1, byTest := [] }

/-- Claim C8 counterexample: the checks list the composer builds has THREE
named checks (deploy-required-jobs, ci-run-success, test-assertions), not
the claimed two. -/
theorem c8_counterexample :
    (buildChecks ingestSample sampleSummary).length = 3 ∧
    (buildChecks ingestSample sampleSummary).map (fun c => c.id) ≠
      ["deploy-required-jobs", "test-assertions"] := by
  constructor
  · rfl
  · decide

/-- Claim C8 as amended: the checks list consists of exactly three named
checks — deploy-required-jobs, ci-run-success and test-assertions — the
test-assertions check has status "passed" iff the computed
AssertionSummary.failed is 0, and the checks field of every evidence
document the composer produces is exactly `buildChecks` of its ingest
record and computed summary. -/
theorem c8_three_checks_and_assertion_status :
    ∀ (env : FsEnv) (testsDir manifestDir : String) (ingest : IngestOutput)
      (testManifest : RawTestManifest) (now : String)
      (summary : AssertionSummary),
      (∃ deployCheck ciCheck assertionCheck,
        buildChecks ingest summary =
          [deployCheck, ciCheck, assertionCheck] ∧
        deployCheck.id = "deploy-required-jobs" ∧
        ciCheck.id = "ci-run-success" ∧
        assertionCheck.id = "test-assertions" ∧
        (assertionCheck.status = Status.passed ↔ summary.failed = 0)) ∧
      Except.map (fun r => r.1.checks)
          (composerRun env testsDir manifestDir ingest testManifest now) =
        Except.map (buildChecks ingest)
          (validateAndSummarizeTestEvidence env testsDir manifestDir
            (testManifest.testEvidence.getD [])) := by
  intro env testsDir manifestDir ingest testManifest now summary
  constructor
  · refine ⟨_, _, _, rfl, rfl, rfl, rfl, ?_⟩
    by_cases h : summary.failed = 0 <;> simp [h]
  · simp only [composerRun]
    cases hval : validateAndSummarizeTestEvidence env testsDir manifestDir
      (testManifest.testEvidence.getD []) with
    | error msg => simp [Bind.bind, Except.bind, Except.map]
    | ok s => simp [Bind.bind, Except.bind, Except.map]

/-- Membership in the snapshotter's filtered index implies a different
snapshot name. -/
theorem mem_filter_ne_snapshot {name : String} {l : List HistorySnapshot}
    {a : HistorySnapshot}
    (h : a ∈ l.filter (fun item => item.snapshot ≠ name)) :
    a.snapshot ≠ name := by
  have hp := (List.mem_filter.mp h).2
  simpa using hp

/-- Any single snapshotter run leaves exactly one index entry bearing the
snapshot name it derived. -/
theorem historyRun_countP_eq_one (fmt : String → String)
    (evidence : HistoryEvidencePayload) (old : List HistorySnapshot) :
    (historyRun fmt evidence old).countP
      (fun item =>
        item.snapshot == "history/" ++ snapshotNameOf fmt evidence) = 1 := by
  unfold historyRun newHistoryEntry
  rw [List.countP_cons]
  have hzero : (old.filter
      (fun item =>
        item.snapshot ≠ "history/" ++ snapshotNameOf fmt evidence)).countP
      (fun item =>
        item.snapshot == "history/" ++ snapshotNameOf fmt evidence) = 0 := by
    rw [List.countP_eq_zero]
    intro a ha
    have hne := mem_filter_ne_snapshot ha
    simp [hne]
  rw [hzero]
  simp

/-- Claim C9: after a snapshotter run the new entry is first, no other
entry carries its snapshot name, name-uniqueness of the index is
preserved, and two runs over evidence documents sharing `generatedAt` and
commit sha leave exactly one entry for that snapshot name. -/
theorem c9_history_index_front_and_unique :
    ∀ (fmt : String → String) (ev1 ev2 : HistoryEvidencePayload)
      (old : List HistorySnapshot),
      (historyRun fmt ev1 old).head? = some (newHistoryEntry fmt ev1) ∧
      (∀ item ∈ (historyRun fmt ev1 old).tail,
        item.snapshot ≠ "history/" ++ snapshotNameOf fmt ev1) ∧
      ((old.map (fun s => s.snapshot)).Nodup →
        ((historyRun fmt ev1 old).map (fun s => s.snapshot)).Nodup) ∧
      (ev1.generatedAt = ev2.generatedAt →
        historyCommitSha ev1 = historyCommitSha ev2 →
        (historyRun fmt ev2 (historyRun fmt ev1 old)).countP
          (fun item =>
            item.snapshot == "history/" ++ snapshotNameOf fmt ev1) = 1) := by
  intro fmt ev1 ev2 old
  refine ⟨rfl, ?_, ?_, ?_⟩
  · intro item hitem
    exact mem_filter_ne_snapshot hitem
  · intro hnodup
    unfold historyRun
    rw [List.map_cons]
    refine List.nodup_cons.mpr ⟨?_, ?_⟩
    · intro hmem
      obtain ⟨x, hx, hxeq⟩ := List.mem_map.mp hmem
      exact mem_filter_ne_snapshot hx
        (by simpa [newHistoryEntry] using hxeq)
    · exact ((List.filter_sublist old).map (fun s => s.snapshot)).nodup
        hnodup
  · intro hgen hsha
    have hname : snapshotNameOf fmt ev1 = snapshotNameOf fmt ev2 := by
      unfold snapshotNameOf
      rw [hgen, hsha]
    rw [hname]
    exact historyRun_countP_eq_one fmt ev2 (historyRun fmt ev1 old)

/-- Evidence payload for the C9 witness. -/
def evSample : HistoryEvidencePayload :=
  { generatedAt := "2026-01-01T00:00:00Z"
    source := some { ref := some "main", commitSha := some "abcdef123456" }
    verification := some { ciRunId := some "1", deployRunId := some "2" } }

/-- A pre-existing index for the C9 witness. -/
def oldIndexSample : List HistorySnapshot :=
  [{ snapshot := "history/old-1", generatedAt := "g1", sourceRef := "r",
      sourceCommitSha := "c", ciRunId := "1", deployRunId := "2" },
   { snapshot := "history/old-2", generatedAt := "g2", sourceRef := "r",
      sourceCommitSha := "c", ciRunId := "1", deployRunId := "2" }]

theorem c9_witness :
    (historyRun (fun s => s) evSample oldIndexSample).head? =
      some (newHistoryEntry (fun s => s) evSample) ∧
    ((historyRun (fun s => s) evSample oldIndexSample).map
      (fun s => s.snapshot)).Nodup ∧
    (historyRun (fun s => s) evSample
        (historyRun (fun s => s) evSample oldIndexSample)).countP
      (fun item =>
        item.snapshot ==
          "history/" ++ snapshotNameOf (fun s => s) evSample) = 1 :=
  ⟨(c9_history_index_front_and_unique (fun s => s) evSample evSample
      oldIndexSample).1,
   (c9_history_index_front_and_unique (fun s => s) evSample evSample
      oldIndexSample).2.2.1 (by decide),
   (c9_history_index_front_and_unique (fun s => s) evSample evSample
      oldIndexSample).2.2.2 rfl rfl⟩

/-- A valid e2e entry with testId "sos-e2e" (first manifest file). -/
def entryA5 : TestEvidenceEntry :=
  { sampleEntry "sos-e2e" with suiteType := SuiteType.e2e }

/-- The same testId produced by a second manifest file, with a different
jobName so the two entries are distinguishable. -/
def entryB5 : TestEvidenceEntry :=
  { entryA5 with jobName := "jB" }

/-- Two manifest files, lexicographic order "a" then "b", both carrying
testId "sos-e2e". -/
def readManifest5 : String → Option RawManifest := fun p =>
  if p = "a" then some (RawManifest.mk (some "g") (some [entryA5]))
  else if p = "b" then some (RawManifest.mk (some "g") (some [entryB5]))
  else none

/-- Claim C5: on manifests from two files sharing a testId, the legacy
merger succeeds and keeps exactly the entry from the lexicographically
last file (last write wins), while the toolkit merger raises the
duplicate-testId error on the same input. -/
theorem c5_legacy_and_toolkit_merge_diverge :
    legacyMergeRun readManifest5 ["b", "a"] "NOW" =
      Except.ok (TestEvidenceManifest.mk "NOW" [entryB5]) ∧
    runMergeTestEvidenceManifests (fun _ => true) readManifest5 ["b", "a"]
        "NOW" = Except.error (duplicateTestIdMessage "sos-e2e" "b") := by
  constructor
  · decide
  · decide

/-!
## Determinism of the merge order
-/

theorem charListLe_total : ∀ (a b : List Char),
    charListLe a b = true ∨ charListLe b a = true
  | [], _ => Or.inl rfl
  | _ :: _, [] => Or.inr rfl
  | c :: cs, d :: ds => by
    rcases Nat.lt_trichotomy c.toNat d.toNat with h | h | h
    · left; simp [charListLe, h]
    · rcases charListLe_total cs ds with ih | ih
      · left; simp [charListLe, h, ih]
      · right; simp [charListLe, h.symm, ih]
    · right; simp [charListLe, h]

theorem charListLe_cons_iff {x y : Char} {xs ys : List Char} :
    charListLe (x :: xs) (y :: ys) = true ↔
      (x.toNat < y.toNat ∨
        (x.toNat = y.toNat ∧ charListLe xs ys = true)) := by
  simp only [charListLe]
  split_ifs with h1 h2
  · simp [h1]
  · simp only [Bool.false_eq_true, false_iff]
    intro hcase
    rcases hcase with hcase | ⟨hcase, -⟩ <;> omega
  · have he : x.toNat = y.toNat := by omega
    simp [he]

theorem charListLe_trans : ∀ (a b c : List Char),
    charListLe a b = true → charListLe b c = true → charListLe a c = true
  | [], _, _ => fun _ _ => rfl
  | _ :: _, [], _ => by intro hab _; simp [charListLe] at hab
  | _ :: _, _ :: _, [] => by intro _ hbc; simp [charListLe] at hbc
  | x :: xs, y :: ys, z :: zs => by
    intro hab hbc
    rw [charListLe_cons_iff] at hab hbc ⊢
    rcases hab with hab | ⟨hab, habrec⟩ <;>
      rcases hbc with hbc | ⟨hbc, hbcrec⟩
    · exact Or.inl (by omega)
    · exact Or.inl (by omega)
    · exact Or.inl (by omega)
    · exact Or.inr ⟨by omega, charListLe_trans xs ys zs habrec hbcrec⟩

theorem charListLe_antisymm : ∀ (a b : List Char),
    charListLe a b = true → charListLe b a = true → a = b
  | [], [] => fun _ _ => rfl
  | [], _ :: _ => by intro _ hba; simp [charListLe] at hba
  | _ :: _, [] => by intro hab _; simp [charListLe] at hab
  | x :: xs, y :: ys => by
    intro hab hba
    rw [charListLe_cons_iff] at hab hba
    rcases hab with hab | ⟨hab, habrec⟩ <;>
      rcases hba with hba | ⟨hba, hbarec⟩ <;>
      try omega
    have hxy : x = y := Char.eq_of_val_eq (UInt32.ext hab)
    rw [hxy, charListLe_antisymm xs ys habrec hbarec]

instance : IsTotal String pathLe :=
  ⟨fun a b => charListLe_total a.data b.data⟩

instance : IsTrans String pathLe :=
  ⟨fun a b c => charListLe_trans a.data b.data c.data⟩

instance : IsAntisymm String pathLe :=
  ⟨fun a b hab hba => by
    have h := charListLe_antisymm a.data b.data hab hba
    cases a
    cases b
    exact congrArg String.mk h⟩

theorem sortPaths_perm_invariant {paths1 paths2 : List String}
    (h : paths1.Perm paths2) : sortPaths paths1 = sortPaths paths2 := by
  have s1 := List.sorted_insertionSort pathLe paths1
  have s2 := List.sorted_insertionSort pathLe paths2
  exact List.eq_of_perm_of_sorted
    ((List.perm_insertionSort pathLe paths1).trans
      (h.trans (List.perm_insertionSort pathLe paths2).symm)) s1 s2

/-- Claim C7: the merged testEvidence array is identical across re-runs
and across any reordering of the discovered manifest files; only
`generatedAt` (the `now` argument) can differ. -/
theorem c7_merge_deterministic_up_to_generatedAt :
    ∀ (parseDate : String → Bool)
      (readManifest : String → Option RawManifest)
      (paths1 paths2 : List String) (now1 now2 : String),
      paths1.Perm paths2 →
      Except.map (fun m => m.testEvidence)
          (runMergeTestEvidenceManifests parseDate readManifest paths1 now1)
        = Except.map (fun m => m.testEvidence)
          (runMergeTestEvidenceManifests parseDate readManifest paths2
            now2) := by
  intro parseDate readManifest paths1 paths2 now1 now2 hperm
  have hs : sortPaths paths1 = sortPaths paths2 :=
    sortPaths_perm_invariant hperm
  simp only [runMergeTestEvidenceManifests, hs]
  cases hm : mergeFiles parseDate readManifest (sortPaths paths2) [] with
  | error msg => simp [Bind.bind, Except.bind, Except.map]
  | ok pair =>
    obtain ⟨mergedEntries, seenTestIds⟩ := pair
    cases hreq : checkRequiredIds
        "Required testId is missing from merged manifests: " requiredTestIds
        seenTestIds with
    | error msg => simp [Bind.bind, Except.bind, Except.map, hreq]
    | ok u => simp [Bind.bind, Except.bind, Except.map, hreq]

set_option maxRecDepth 1000000 in
theorem c7_witness :
    Except.map (fun m => m.testEvidence)
        (runMergeTestEvidenceManifests (fun _ => true) readManifest5
          ["b", "a"] "N1")
      = Except.map (fun m => m.testEvidence)
        (runMergeTestEvidenceManifests (fun _ => true) readManifest5
          ["a", "b"] "N2") :=
  c7_merge_deterministic_up_to_generatedAt (fun _ => true) readManifest5
    ["b", "a"] ["a", "b"] "N1" "N2" (by decide)

/-- The entries a manifest file contributes to the merge (empty when the
file is unreadable or carries no testEvidence array). -/
def manifestEntries (readManifest : String → Option RawManifest)
    (p : String) : List TestEvidenceEntry :=
  ((readManifest p).bind (fun m => m.testEvidence)).getD []

/-- The testIds a manifest file contributes to the merge. -/
def manifestTestIds (readManifest : String → Option RawManifest)
    (p : String) : List String :=
  (manifestEntries readManifest p).map (fun e => e.testId)

theorem mergeEntriesFromFile_ok_seen {parseDate : String → Bool}
    {filePath : String} :
    ∀ {l : List TestEvidenceEntry} {seen : List String}
      {es : List TestEvidenceEntry} {seenF : List String},
      mergeEntriesFromFile parseDate filePath l seen =
        Except.ok (es, seenF) →
      (∀ x ∈ seen, x ∈ seenF) ∧
      (∀ e ∈ l, e.testId ∈ seenF ∧ e.testId ∉ seen) := by
  intro l
  induction l with
  | nil =>
    intro seen es seenF h
    simp only [mergeEntriesFromFile, Except.ok.injEq, Prod.mk.injEq] at h
    obtain ⟨-, hseen⟩ := h
    subst hseen
    exact ⟨fun x hx => hx, fun e he => absurd he (by simp)⟩
  | cons entry rest ih =>
    intro seen es seenF h
    simp only [mergeEntriesFromFile, ensure_bind] at h
    rcases except_bind_ok_iff.mp h with ⟨u, hval, h⟩
    obtain ⟨hnotin, h⟩ := if_ok h
    rcases except_bind_ok_iff.mp h with ⟨pair, hrec, hfin⟩
    obtain ⟨tail, sF⟩ := pair
    simp only [Except.ok.injEq, Prod.mk.injEq] at hfin
    obtain ⟨-, hseenF⟩ := hfin
    subst hseenF
    have ihr := ih hrec
    refine ⟨fun x hx => ihr.1 x (List.mem_cons_of_mem _ hx),
      fun e he => ?_⟩
    rcases List.mem_cons.mp he with hee | hmem
    · subst hee
      refine ⟨ihr.1 e.testId (List.mem_cons_self _ _), fun hmem2 => ?_⟩
      exact hnotin (List.elem_iff.mpr hmem2)
    · have hfacts := ihr.2 e hmem
      exact ⟨hfacts.1,
        fun hbad => hfacts.2 (List.mem_cons_of_mem _ hbad)⟩

theorem mergeFiles_ok_ids {parseDate : String → Bool}
    {readManifest : String → Option RawManifest} :
    ∀ {files : List String} {seen : List String}
      {es : List TestEvidenceEntry} {seenF : List String},
      mergeFiles parseDate readManifest files seen = Except.ok (es, seenF) →
      (∀ x ∈ seen, x ∈ seenF) ∧
      (∀ fp ∈ files, ∀ t ∈ manifestTestIds readManifest fp,
        t ∈ seenF ∧ t ∉ seen) := by
  intro files
  induction files with
  | nil =>
    intro seen es seenF h
    simp only [mergeFiles, Except.ok.injEq, Prod.mk.injEq] at h
    obtain ⟨-, hseen⟩ := h
    subst hseen
    exact ⟨fun x hx => hx, fun fp hfp => absurd hfp (by simp)⟩
  | cons fp rest ih =>
    intro seen es seenF h
    cases hr : readManifest fp with
    | none =>
      simp only [mergeFiles, hr] at h
      exact absurd h (by simp)
    | some parsed =>
      simp only [mergeFiles, hr] at h
      cases hte : parsed.testEvidence with
      | none =>
        simp only [hte] at h
        have ihr := ih h
        refine ⟨ihr.1, fun fp2 hfp2 t ht => ?_⟩
        rcases List.mem_cons.mp hfp2 with hfe | hmem
        · subst hfe
          rw [manifestTestIds, manifestEntries, hr] at ht
          simp [hte] at ht
        · exact ihr.2 fp2 hmem t ht
      | some entries =>
        simp only [hte] at h
        rcases except_bind_ok_iff.mp h with ⟨pairA, hentry, h⟩
        obtain ⟨mergedA, seen2⟩ := pairA
        rcases except_bind_ok_iff.mp h with ⟨pairB, hrecur, hfin⟩
        obtain ⟨mergedB, seenF2⟩ := pairB
        simp only [Except.ok.injEq, Prod.mk.injEq] at hfin
        obtain ⟨-, hseenF⟩ := hfin
        subst hseenF
        have hfile := mergeEntriesFromFile_ok_seen hentry
        have ihr := ih hrecur
        refine ⟨fun x hx => ihr.1 x (hfile.1 x hx),
          fun fp2 hfp2 t ht => ?_⟩
        rcases List.mem_cons.mp hfp2 with hfe | hmem
        · subst hfe
          have ht2 : t ∈ entries.map (fun e => e.testId) := by
            simpa [manifestTestIds, manifestEntries, hr, hte] using ht
          obtain ⟨e, he, heq⟩ := List.mem_map.mp ht2
          have hfacts := hfile.2 e he
          exact ⟨ihr.1 t (heq ▸ hfacts.1), heq ▸ hfacts.2⟩
        · have hfacts := ihr.2 fp2 hmem t ht
          exact ⟨hfacts.1, fun hbad => hfacts.2 (hfile.1 t hbad)⟩

theorem mergeFiles_append {parseDate : String → Bool}
    {readManifest : String → Option RawManifest} :
    ∀ {l1 l2 : List String} {seen : List String}
      {es : List TestEvidenceEntry} {seenF : List String},
      mergeFiles parseDate readManifest (l1 ++ l2) seen =
        Except.ok (es, seenF) →
      ∃ es1 seenMid es2,
        mergeFiles parseDate readManifest l1 seen = Except.ok (es1, seenMid)
          ∧ mergeFiles parseDate readManifest l2 seenMid =
            Except.ok (es2, seenF) := by
  intro l1
  induction l1 with
  | nil =>
    intro l2 seen es seenF h
    exact ⟨[], seen, es, rfl, h⟩
  | cons fp rest ih =>
    intro l2 seen es seenF h
    cases hr : readManifest fp with
    | none =>
      rw [List.cons_append] at h
      simp only [mergeFiles, hr] at h
      exact absurd h (by simp)
    | some parsed =>
      rw [List.cons_append] at h
      simp only [mergeFiles, hr] at h
      cases hte : parsed.testEvidence with
      | none =>
        simp only [hte] at h
        obtain ⟨es1, seenMid, es2, h1, h2⟩ := ih h
        refine ⟨es1, seenMid, es2, ?_, h2⟩
        simp only [mergeFiles, hr, hte]
        exact h1
      | some entries =>
        simp only [hte] at h
        rcases except_bind_ok_iff.mp h with ⟨pairA, hentry, h⟩
        obtain ⟨mergedA, seen2⟩ := pairA
        rcases except_bind_ok_iff.mp h with ⟨pairB, hrecur, hfin⟩
        obtain ⟨mergedB, seenF2⟩ := pairB
        simp only [Except.ok.injEq, Prod.mk.injEq] at hfin
        obtain ⟨-, hseenF⟩ := hfin
        subst hseenF
        obtain ⟨es1, seenMid, es2, h1, h2⟩ := ih hrecur
        refine ⟨mergedA ++ es1, seenMid, es2, ?_, h2⟩
        simp only [mergeFiles, hr, hte]
        rw [hentry]
        simp only [Bind.bind, Except.bind]
        rw [h1]

theorem mergeFiles_no_cross_dup {parseDate : String → Bool}
    {readManifest : String → Option RawManifest}
    {files : List String} {seen : List String}
    {out : List TestEvidenceEntry × List String}
    (h : mergeFiles parseDate readManifest files seen = Except.ok out) :
    ∀ {l1 : List String} {pa : String} {l2 : List String},
      files = l1 ++ pa :: l2 → ∀ pb ∈ l2, ∀ t,
      t ∈ manifestTestIds readManifest pa →
      t ∈ manifestTestIds readManifest pb → False := by
  intro l1 pa l2 hsplit pb hpb t hta htb
  obtain ⟨outEs, outSeen⟩ := out
  rw [hsplit] at h
  obtain ⟨es1, seenMid, es2, h1, h2⟩ := mergeFiles_append h
  cases hr : readManifest pa with
  | none =>
    rw [manifestTestIds, manifestEntries, hr] at hta
    simp at hta
  | some parsed =>
    cases hte : parsed.testEvidence with
    | none =>
      rw [manifestTestIds, manifestEntries, hr] at hta
      simp [hte] at hta
    | some entries =>
      simp only [mergeFiles, hr, hte] at h2
      rcases except_bind_ok_iff.mp h2 with ⟨pairA, hentry, h2⟩
      obtain ⟨mergedA, seen2⟩ := pairA
      rcases except_bind_ok_iff.mp h2 with ⟨pairB, hrecur, -⟩
      obtain ⟨mergedB, seenF2⟩ := pairB
      have ht2 : t ∈ entries.map (fun e => e.testId) := by
        simpa [manifestTestIds, manifestEntries, hr, hte] using hta
      obtain ⟨e, he, heq⟩ := List.mem_map.mp ht2
      have hin : t ∈ seen2 :=
        heq ▸ ((mergeEntriesFromFile_ok_seen hentry).2 e he).1
      have hout := (mergeFiles_ok_ids hrecur).2 pb hpb t htb
      exact hout.2 hin

theorem mergeEntriesFromFile_error_shape {parseDate : String → Bool}
    {filePath : String} :
    ∀ {l : List TestEvidenceEntry} {seen : List String} {msg : String},
      mergeEntriesFromFile parseDate filePath l seen = Except.error msg →
      (∀ e ∈ l, validateEntry parseDate filePath e = Except.ok ()) →
      ∃ t, t ∈ l.map (fun e => e.testId) ∧
        msg = duplicateTestIdMessage t filePath := by
  intro l
  induction l with
  | nil =>
    intro seen msg h _
    exact absurd h (by simp [mergeEntriesFromFile])
  | cons entry rest ih =>
    intro seen msg h hvalid
    simp only [mergeEntriesFromFile, ensure_bind] at h
    rcases except_bind_error_iff.mp h with hveq | ⟨u, hvOk, h2⟩
    · rw [hvalid entry (List.mem_cons_self _ _)] at hveq
      exact absurd hveq (by simp)
    · split at h2
      · rcases except_bind_error_iff.mp h2 with hrec | ⟨pair, -, hfin⟩
        · obtain ⟨t, tmem, shape⟩ := ih hrec
            (fun e he => hvalid e (List.mem_cons_of_mem _ he))
          exact ⟨t, List.mem_cons_of_mem _ tmem, shape⟩
        · exact absurd hfin (by simp)
      · have hmsg : duplicateTestIdMessage entry.testId filePath = msg := by
          injection h2
        exact ⟨entry.testId, by simp, hmsg.symm⟩

theorem mergeFiles_error_shape {parseDate : String → Bool}
    {readManifest : String → Option RawManifest} :
    ∀ {files : List String} {seen : List String} {msg : String},
      mergeFiles parseDate readManifest files seen = Except.error msg →
      (∀ p ∈ files, (readManifest p).isSome) →
      (∀ p ∈ files, ∀ e ∈ manifestEntries readManifest p,
        validateEntry parseDate p e = Except.ok ()) →
      ∃ t fp, fp ∈ files ∧ t ∈ manifestTestIds readManifest fp ∧
        msg = duplicateTestIdMessage t fp := by
  intro files
  induction files with
  | nil =>
    intro seen msg h _ _
    exact absurd h (by simp [mergeFiles])
  | cons fp rest ih =>
    intro seen msg h hread hvalid
    obtain ⟨parsed, hr⟩ :=
      Option.isSome_iff_exists.mp (hread fp (List.mem_cons_self _ _))
    simp only [mergeFiles, hr] at h
    cases hte : parsed.testEvidence with
    | none =>
      simp only [hte] at h
      obtain ⟨t, fp2, hmem, tids, shape⟩ := ih h
        (fun p hp => hread p (List.mem_cons_of_mem _ hp))
        (fun p hp => hvalid p (List.mem_cons_of_mem _ hp))
      exact ⟨t, fp2, List.mem_cons_of_mem _ hmem, tids, shape⟩
    | some entries =>
      simp only [hte] at h
      rcases except_bind_error_iff.mp h with hentry | ⟨pairA, -, h2⟩
      · have hval2 : ∀ e ∈ entries,
            validateEntry parseDate fp e = Except.ok () := by
          intro e he
          refine hvalid fp (List.mem_cons_self _ _) e ?_
          simpa [manifestEntries, hr, hte] using he
        obtain ⟨t, tmem, shape⟩ :=
          mergeEntriesFromFile_error_shape hentry hval2
        refine ⟨t, fp, List.mem_cons_self _ _, ?_, shape⟩
        simpa [manifestTestIds, manifestEntries, hr, hte] using tmem
      · obtain ⟨mergedA, seen2⟩ := pairA
        rcases except_bind_error_iff.mp h2 with hrec | ⟨pairB, -, hfin⟩
        · obtain ⟨t, fp2, hmem, tids, shape⟩ := ih hrec
            (fun p hp => hread p (List.mem_cons_of_mem _ hp))
            (fun p hp => hvalid p (List.mem_cons_of_mem _ hp))
          exact ⟨t, fp2, List.mem_cons_of_mem _ hmem, tids, shape⟩
        · exact absurd hfin (by simp)

/-- Claim C4 as amended: whenever the same testId appears in more than one
manifest file, the toolkit merge rejects (it raises, so no merged manifest
is written); when additionally every manifest file is readable and every
entry passes structural validation, the error raised is exactly the
duplicate-testId error, naming a testId contributed by the named file. -/
theorem c4_duplicate_testid_rejected :
    ∀ (parseDate : String → Bool)
      (readManifest : String → Option RawManifest)
      (paths : List String) (now : String),
      (∃ p1 ∈ paths, ∃ p2 ∈ paths, p1 ≠ p2 ∧ ∃ t,
        t ∈ manifestTestIds readManifest p1 ∧
        t ∈ manifestTestIds readManifest p2) →
      (∃ msg, runMergeTestEvidenceManifests parseDate readManifest paths now
          = Except.error msg) ∧
      ((∀ p ∈ paths, (readManifest p).isSome) →
        (∀ p ∈ paths, ∀ e ∈ manifestEntries readManifest p,
          validateEntry parseDate p e = Except.ok ()) →
        ∃ t fp, fp ∈ paths ∧ t ∈ manifestTestIds readManifest fp ∧
          runMergeTestEvidenceManifests parseDate readManifest paths now =
            Except.error (duplicateTestIdMessage t fp)) := by
  intro parseDate readManifest paths now hdup
  have hpermMem : ∀ p : String, p ∈ sortPaths paths ↔ p ∈ paths :=
    fun p => (List.perm_insertionSort pathLe paths).mem_iff
  have hnotok : ∀ out,
      mergeFiles parseDate readManifest (sortPaths paths) [] =
        Except.ok out → False := by
    intro out hok
    obtain ⟨p1, hp1, p2, hp2, hne, t, ht1, ht2⟩ := hdup
    have hp1s : p1 ∈ sortPaths paths := (hpermMem p1).mpr hp1
    have hp2s : p2 ∈ sortPaths paths := (hpermMem p2).mpr hp2
    obtain ⟨s, tl, hsplit⟩ := List.append_of_mem hp1s
    rw [hsplit] at hp2s
    rcases List.mem_append.mp hp2s with hin | hin
    · obtain ⟨u, v, hsv⟩ := List.append_of_mem hin
      have hsplit2 : sortPaths paths = u ++ p2 :: (v ++ p1 :: tl) := by
        rw [hsplit, hsv]
        simp
      exact mergeFiles_no_cross_dup hok hsplit2 p1 (by simp) t ht2 ht1
    · rcases List.mem_cons.mp hin with heq | hin2
      · exact hne heq.symm
      · exact mergeFiles_no_cross_dup hok hsplit p2 hin2 t ht1 ht2
  cases hm : mergeFiles parseDate readManifest (sortPaths paths) [] with
  | ok out => exact (hnotok out hm).elim
  | error msg =>
    have hrun : runMergeTestEvidenceManifests parseDate readManifest paths
        now = Except.error msg := by
      simp only [runMergeTestEvidenceManifests, hm]
      rfl
    refine ⟨⟨msg, hrun⟩, fun hread hvalid => ?_⟩
    obtain ⟨t, fp, hmem, tids, shape⟩ := mergeFiles_error_shape hm
      (fun p hp => hread p ((hpermMem p).mp hp))
      (fun p hp => hvalid p ((hpermMem p).mp hp))
    exact ⟨t, fp, (hpermMem fp).mp hmem, tids, shape ▸ hrun⟩

/-- First manifest file of the C4 counterexample: its entry is
structurally invalid (empty assertions) and reuses testId "x". -/
def entryInvalid4 : TestEvidenceEntry :=
  { sampleEntry "x" with assertions := [] }

/-- Manifest files for the C4 counterexample: testId "x" appears in both
"a" and "b", but the entry in "a" is structurally invalid. -/
def readManifest4 : String → Option RawManifest := fun p =>
  if p = "a" then some (RawManifest.mk (some "g") (some [entryInvalid4]))
  else if p = "b" then
    some (RawManifest.mk (some "g") (some [sampleEntry "x"]))
  else none

set_option maxRecDepth 1000000 in
/-- Claim C4, as frozen, is false at this input: testId "x" appears in two
manifest files, the merge does reject, but the error it raises is the
structural-validation message, not a duplicate-testId error naming "x". -/
theorem c4_counterexample :
    runMergeTestEvidenceManifests (fun _ => true) readManifest4 ["a", "b"]
        "NOW" = Except.error "a/x: assertions must be a non-empty array." ∧
    ("a/x: assertions must be a non-empty array." ≠
      duplicateTestIdMessage "x" "a") ∧
    ("a/x: assertions must be a non-empty array." ≠
      duplicateTestIdMessage "x" "b") := by
  refine ⟨by decide, by decide, by decide⟩

set_option maxRecDepth 1000000 in
theorem c4_witness :
    (∃ msg, runMergeTestEvidenceManifests (fun _ => true) readManifest5
        ["b", "a"] "NOW" = Except.error msg) ∧
    ((∀ p ∈ ["b", "a"], (readManifest5 p).isSome) →
      (∀ p ∈ ["b", "a"], ∀ e ∈ manifestEntries readManifest5 p,
        validateEntry (fun _ => true) p e = Except.ok ()) →
      ∃ t fp, fp ∈ ["b", "a"] ∧ t ∈ manifestTestIds readManifest5 fp ∧
        runMergeTestEvidenceManifests (fun _ => true) readManifest5
          ["b", "a"] "NOW" = Except.error (duplicateTestIdMessage t fp)) :=
  c4_duplicate_testid_rejected (fun _ => true) readManifest5 ["b", "a"]
    "NOW"
    ⟨"a", by decide, "b", by decide, by decide,
      "sos-e2e", by decide, by decide⟩

theorem c8_witness :
    (∃ deployCheck ciCheck assertionCheck,
      buildChecks ingestSample sampleSummary =
        [deployCheck, ciCheck, assertionCheck] ∧
      deployCheck.id = "deploy-required-jobs" ∧
      ciCheck.id = "ci-run-success" ∧
      assertionCheck.id = "test-assertions" ∧
      (assertionCheck.status = Status.passed ↔ sampleSummary.failed = 0)) ∧
    Except.map (fun r => r.1.checks)
        (composerRun envEmpty "td" "md" ingestSample
          (RawTestManifest.mk none) "now") =
      Except.map (buildChecks ingestSample)
        (validateAndSummarizeTestEvidence envEmpty "td" "md"
          ((RawTestManifest.mk none).testEvidence.getD [])) :=
  c8_three_checks_and_assertion_status envEmpty "td" "md" ingestSample
    (RawTestManifest.mk none) "now" sampleSummary
